import Mathlib

/-!
# RadiaCode BLE component: a verification development

A shallow embedding of `radiacode_component.cpp` / `radiacode_component.h`
(class `RadiaCodeBLEComponent`) and theorems about it.

Conventions of the embedding

* A byte is a `Nat`; a byte buffer (`std::vector<uint8_t>`, or a pointer plus a
  length) is a `List Nat`.  Values the code stores into a `uint8_t`, `uint16_t`
  or `uint32_t` are reduced modulo `2^8`, `2^16`, `2^32` at the store.
* The object's private fields form the record `State`; every member function
  becomes a function from `State` to the new `State` paired with the list of
  effects it performed, in order (link writes, log lines, sensor publishes,
  delays).
* `millis()` is an input: every call site of `millis()` receives its reading as
  an explicit argument.
* `float` values are modelled as rationals.  The reinterpretation of four
  bytes as a `float` (`memcpy`) is the parameter `fv`, applied to the
  little-endian 32-bit pattern; infinities and NaN have no value here.
  Arithmetic on the rates and on the accumulated dose is exact rational
  arithmetic.  The conversions between `float` and `int` are not idealised,
  because truncation is not continuous: the product that line 422 converts to
  `int` is rounded to single precision first (`f32_round`), the conversion has
  the range of a 32-bit `int` (`truncToInt`), and an `int` passed where a
  `float` is expected is rounded to single precision.
* Loops are structural recursions on a fuel argument; the entry points pass
  enough fuel for the loop to run to its own exit condition.
-/

namespace RadiaCode

/-! ## Protocol constants (`radiacode_component.h`) -/

def MAX_RESPONSE_SIZE : Nat := 4096
def BLE_CHUNK_SIZE : Nat := 18
def RESPONSE_TIMEOUT_MS : Nat := 30000
def UPDATE_INTERVAL_MS : Nat := 5000

/-- Command codes of `enum class Command : uint16_t`. -/
def Command.SET_EXCHANGE : Nat := 0x0017
def Command.RD_VIRT_SFR : Nat := 0x0824
def Command.RD_VIRT_STRING : Nat := 0x0826

/-- Identifier of `enum class VirtualString : uint32_t`. -/
def VirtualString.DATA_BUF : Nat := 256

/-- Identifiers of `enum class VSFR : uint32_t`. -/
def VSFR.DS_uR : Nat := 0x8022
def VSFR.TEMP_degC : Nat := 0x8024

/-- Status `ESP_OK` of the link write. -/
def ESP_OK : Int := 0

/-! ## Machine arithmetic -/

/-- Subtraction of two `uint32_t` values, as the hardware computes it. -/
def sub32 (a b : Nat) : Nat := (a + 4294967296 - b % 4294967296) % 4294967296

/-- The little-endian 32-bit value of four bytes, as the code assembles it with
shifts and ors before storing it in a `uint32_t`. -/
def le32 (b0 b1 b2 b3 : Nat) : Nat :=
  (b0 ||| (b1 <<< 8) ||| (b2 <<< 16) ||| (b3 <<< 24)) % 4294967296

/-- The little-endian 16-bit value of two bytes, stored in a `uint16_t`. -/
def le16 (b0 b1 : Nat) : Nat := (b0 ||| (b1 <<< 8)) % 65536

/-! ## Single-precision arithmetic -/

/-- Rounding of a rational to the nearest integer, a tie going to the even
neighbour. -/
def round_ties_even (m : ℚ) : Int :=
  let f := Int.floor m
  if m - f < 1 / 2 then f
  else if 1 / 2 < m - f then f + 1
  else if f % 2 = 0 then f else f + 1

/-- Rounding of an exact result to IEEE-754 single precision, as every
`float` operation performs it in the default mode (to nearest, ties to even):
24 significant bits, and below `2^-126` the fixed spacing `2^-149` of the
subnormal numbers.  A result beyond the largest finite `float` is an infinity
in the code and stays a finite rational of at least `2^127` here. -/
def f32_round (x : ℚ) : ℚ :=
  if x = 0 then 0
  else
    let e := max (Int.log 2 |x|) (-126)
    let ulp : ℚ := (2 : ℚ) ^ (e - 23)
    (round_ties_even (x / ulp) : ℚ) * ulp

/-- `static_cast<int>` of a float: truncation toward zero into a 32-bit `int`.
For a value whose truncation does not fit, the conversion is undefined in C++;
the result taken here is `INT_MIN`, which the x86 conversion instruction
produces.  The theorems on the conversion are about values that fit. -/
def truncToInt (x : ℚ) : Int :=
  let t := if 0 ≤ x then Int.floor x else Int.ceil x
  if -2147483648 ≤ t ∧ t ≤ 2147483647 then t else -2147483648

/-! ## Effects and state -/

/-- The log lines of the component (verbose-level lines are left out). -/
inductive Log where
  | services_not_discovered
  | sending_command (cmd_code size : Nat)
  | write_failed (offset : Nat) (status : Int)
  | first_packet_too_short (length : Nat)
  | new_response (expected : Nat)
  | received (got expected : Nat)
  | processing_complete (size : Nat)
  | response_too_short
  | response_too_short_for_retcode
  | response (cmd_echo seq retcode payload_len : Nat)
  | command_failed (cmd_echo retcode : Nat)
  | temperature (t : ℚ)
  | unknown_record (eid gid : Nat)
  | radiation (cps : ℚ) (cpm : Int) (nsv : ℚ)
  | accumulated_dose (usv : ℚ)
  | response_timeout
  | requesting_data
  | requesting_temperature (vsfr_id : Nat)
  | initializing
  | connected
  | disconnected
  | notifications_registered
  | service_not_found
  | write_char_not_found
  | notify_char_not_found
  | register_failed (status : Int)
  | services_discovered
  deriving DecidableEq, Repr

/-- The five telemetry sinks. -/
inductive Sensor where
  | dose_rate
  | count_rate
  | count_rate_cpm
  | dose_accumulated
  | temperature
  deriving DecidableEq, Repr

/-- What a member function does to the outside world. -/
inductive Effect where
  | log (l : Log)
  | write_char (handle : Nat) (chunk : List Nat)
  | delay (ms : Nat)
  | publish (sensor : Sensor) (value : ℚ)
  deriving DecidableEq, Repr

/-- The private fields of `RadiaCodeBLEComponent`.  A sensor pointer is
modelled by whether it is non-null. -/
structure State where
  dose_rate_sensor_ : Bool
  count_rate_sensor_ : Bool
  count_rate_cpm_sensor_ : Bool
  dose_accumulated_sensor_ : Bool
  temperature_sensor_ : Bool
  write_handle_ : Nat
  notify_handle_ : Nat
  services_discovered_ : Bool
  device_initialized_ : Bool
  response_buffer_ : List Nat
  expected_response_size_ : Nat
  bytes_received_ : Nat
  response_start_time_ : Nat
  sequence_number_ : Nat
  last_update_time_ : Nat
  last_temperature_time_ : Nat
  last_dose_report_time_ : Nat
  accumulated_dose_nsv_ : ℚ
  last_dose_integration_time_ : Nat
  deriving DecidableEq, Repr

/-- The fields as the class declaration initialises them, for a given set of
configured sensors. -/
def State.fresh (dr cr cpm acc temp : Bool) : State :=
  { dose_rate_sensor_ := dr, count_rate_sensor_ := cr, count_rate_cpm_sensor_ := cpm,
    dose_accumulated_sensor_ := acc, temperature_sensor_ := temp,
    write_handle_ := 0, notify_handle_ := 0,
    services_discovered_ := false, device_initialized_ := false,
    response_buffer_ := [], expected_response_size_ := 0, bytes_received_ := 0,
    response_start_time_ := 0, sequence_number_ := 0,
    last_update_time_ := 0, last_temperature_time_ := 0, last_dose_report_time_ := 0,
    accumulated_dose_nsv_ := 0, last_dose_integration_time_ := 0 }

/-! ## Utility members -/

/-- `reset_response_buffer` (lines 457-462). -/
def reset_response_buffer (s : State) : State :=
  { s with response_buffer_ := [], expected_response_size_ := 0,
           bytes_received_ := 0, response_start_time_ := 0 }

/-- `is_response_timeout` (lines 464-467); `millis` is the clock reading. -/
def is_response_timeout (s : State) (millis : Nat) : Bool :=
  if s.response_start_time_ = 0 then false
  else decide (sub32 millis s.response_start_time_ > RESPONSE_TIMEOUT_MS)

/-! ## CommandFramer: `send_command` -/

/-- The sequence byte of line 192: `0x80 + (sequence_number_ % 32)`, stored in a
`uint8_t`. -/
def seq_byte (s : State) : Nat := (0x80 + s.sequence_number_ % 32) % 256

/-- The packet that lines 172-196 of `send_command` build. -/
def build_packet (s : State) (cmd : Nat) (payload : List Nat) : List Nat :=
  let cmd_code := cmd % 65536
  let packet_size := (4 + payload.length) % 4294967296
  [ (packet_size &&& 0xFF) % 256,
    ((packet_size >>> 8) &&& 0xFF) % 256,
    ((packet_size >>> 16) &&& 0xFF) % 256,
    ((packet_size >>> 24) &&& 0xFF) % 256,
    (cmd_code &&& 0xFF) % 256,
    ((cmd_code >>> 8) &&& 0xFF) % 256,
    0x00,
    seq_byte s ] ++ payload

/-- The chunk loop of lines 201-218, from index `i`: each iteration writes
`min(BLE_CHUNK_SIZE, size - i)` bytes starting at `packet[i]`, logs a warning
when the write reports a status other than `ESP_OK`, and delays 5 ms.
`wstatus i` is the status the link returns for the write at offset `i`. -/
def send_chunks (handle : Nat) (packet : List Nat) (wstatus : Nat → Int) :
    Nat → Nat → List Effect
  | 0, _ => []
  | fuel + 1, i =>
    if i < packet.length then
      let chunk_len := min BLE_CHUNK_SIZE (packet.length - i)
      let status := wstatus i
      [Effect.write_char handle ((packet.drop i).take chunk_len)]
        ++ (if status ≠ ESP_OK then [Effect.log (Log.write_failed i status)] else [])
        ++ [Effect.delay 5]
        ++ send_chunks handle packet wstatus fuel (i + BLE_CHUNK_SIZE)
    else []

/-- `send_command` (lines 166-222).  `millis` is the clock reading of line 221. -/
def send_command (s : State) (cmd : Nat) (payload : List Nat)
    (wstatus : Nat → Int) (millis : Nat) : State × List Effect :=
  if !s.services_discovered_ then
    (s, [Effect.log Log.services_not_discovered])
  else
    let packet := build_packet s cmd payload
    let s1 := { s with sequence_number_ := (s.sequence_number_ + 1) % 256 }
    let sent := send_chunks s.write_handle_ packet wstatus packet.length 0
    let s2 := reset_response_buffer s1
    ({ s2 with response_start_time_ := millis % 4294967296 },
      [Effect.log (Log.sending_command (cmd % 65536) packet.length)] ++ sent)

/-- The fragments handed to the link write, in the order they are written. -/
def writes : List Effect → List (List Nat)
  | [] => []
  | Effect.write_char _ chunk :: es => chunk :: writes es
  | _ :: es => writes es

/-! ## Requests built on `send_command` -/

/-- The four little-endian bytes of a `uint32_t` identifier, as `request_data`
and `request_temperature` lay them out (lines 141-146, 156-161). -/
def id_bytes (id : Nat) : List Nat :=
  [ (id &&& 0xFF) % 256,
    ((id >>> 8) &&& 0xFF) % 256,
    ((id >>> 16) &&& 0xFF) % 256,
    ((id >>> 24) &&& 0xFF) % 256 ]

/-- `initialize_device` (lines 129-134). -/
def initialize_device (s : State) (wstatus : Nat → Int) (millis : Nat) :
    State × List Effect :=
  let r := send_command s Command.SET_EXCHANGE [0x01, 0xFF, 0x12, 0xFF] wstatus millis
  ({ r.1 with device_initialized_ := true }, [Effect.log Log.initializing] ++ r.2)

/-- `request_data` (lines 136-149). -/
def request_data (s : State) (wstatus : Nat → Int) (millis : Nat) :
    State × List Effect :=
  let vs_id := VirtualString.DATA_BUF % 4294967296
  let r := send_command s Command.RD_VIRT_STRING (id_bytes vs_id) wstatus millis
  (r.1, [Effect.log Log.requesting_data] ++ r.2)

/-- `request_temperature` (lines 151-164). -/
def request_temperature (s : State) (wstatus : Nat → Int) (millis : Nat) :
    State × List Effect :=
  let vsfr_id := VSFR.TEMP_degC % 4294967296
  let r := send_command s Command.RD_VIRT_SFR (id_bytes vsfr_id) wstatus millis
  (r.1, [Effect.log (Log.requesting_temperature vsfr_id)] ++ r.2)

/-! ## RecordStreamParser and DoseIntegrator -/

/-- The 32-bit pattern of the four bytes at `data[off .. off+4)`, the value a
`memcpy` into a 32-bit object yields on the little-endian target. -/
def read_u32 (data : List Nat) (off : Nat) : Nat :=
  le32 (data.getD off 0) (data.getD (off + 1) 0) (data.getD (off + 2) 0)
    (data.getD (off + 3) 0)

/-- A decoded radiation snapshot: the bit patterns of the two `float` fields
that `parse_realtime_record` copies out of a record body. -/
structure RealTimeRecord where
  count_rate : Nat
  dose_rate : Nat
  deriving DecidableEq, Repr

/-- Lines 420-454 of `parse_realtime_record`: unit conversion, dose
integration, publishing and the throttled accumulated-dose report for one
decoded record.  `millis` is the reading of line 426; `fv` gives the value of a
float bit pattern.  `count_rate_cpm` is an `int`: the single-precision product
of line 422 truncated, and converted back to `float` where line 441 hands it
to `publish_state`. -/
def emit_realtime_record (s : State) (fv : Nat → ℚ) (millis : Nat)
    (rec : RealTimeRecord) : State × List Effect :=
  let count_rate := fv rec.count_rate
  let dose_rate := fv rec.dose_rate
  let count_rate_cps := count_rate
  let count_rate_cpm := truncToInt (f32_round (count_rate * 60))
  let dose_rate_nsv := dose_rate * 10000000
  let now := millis % 4294967296
  let acc :=
    if s.last_dose_integration_time_ > 0 then
      s.accumulated_dose_nsv_
        + dose_rate_nsv * ((sub32 now s.last_dose_integration_time_ : ℚ) / 3600000)
    else s.accumulated_dose_nsv_
  let s1 := { s with accumulated_dose_nsv_ := acc, last_dose_integration_time_ := now }
  let published :=
    [Effect.log (Log.radiation count_rate_cps count_rate_cpm dose_rate_nsv)]
      ++ (if s.count_rate_sensor_ then [Effect.publish Sensor.count_rate count_rate_cps]
          else [])
      ++ (if s.count_rate_cpm_sensor_ then
            [Effect.publish Sensor.count_rate_cpm (f32_round (count_rate_cpm : ℚ))]
          else [])
      ++ (if s.dose_rate_sensor_ then [Effect.publish Sensor.dose_rate dose_rate_nsv]
          else [])
  if s.dose_accumulated_sensor_ ∧ sub32 now s.last_dose_report_time_ ≥ 60000 then
    let accumulated_usv := acc / 1000
    ({ s1 with last_dose_report_time_ := now },
      published ++ [Effect.publish Sensor.dose_accumulated accumulated_usv,
                    Effect.log (Log.accumulated_dose accumulated_usv)])
  else (s1, published)

/-- `parse_realtime_record` (lines 408-455): the length check and the two
`memcpy` reads of lines 409-418, then `emit_realtime_record`.  `data` is the
buffer from the record body on and `length` its length. -/
def parse_realtime_record (s : State) (fv : Nat → ℚ) (millis : Nat)
    (data : List Nat) : State × List Effect :=
  if data.length < 19 then (s, [])
  else emit_realtime_record s fv millis
    { count_rate := read_u32 data 4, dose_rate := read_u32 data 8 }

/-- The `while` loop of `parse_data_buffer` (lines 368-405) from cursor
`offset`.  `clock off` is the `millis()` reading taken while the record whose
body starts at `off` is decoded. -/
def parse_records (fv : Nat → ℚ) (clock : Nat → Nat) (data : List Nat) :
    Nat → Nat → State → State × List Effect
  | 0, _, s => (s, [])
  | fuel + 1, offset, s =>
    if offset + 7 ≤ data.length then
      let eid := data.getD (offset + 1) 0
      let gid := data.getD (offset + 2) 0
      let offset := offset + 7
      if eid = 0 ∧ gid = 0 then
        let r :=
          if offset + 19 ≤ data.length then
            parse_realtime_record s fv (clock offset) (data.drop offset)
          else (s, [])
        let r2 := parse_records fv clock data fuel (offset + 19) r.1
        (r2.1, r.2 ++ r2.2)
      else if eid = 0 ∧ gid = 1 then
        parse_records fv clock data fuel (offset + 8) s
      else if eid = 0 ∧ gid = 2 then
        parse_records fv clock data fuel (offset + 16) s
      else if eid = 0 ∧ gid = 7 then
        parse_records fv clock data fuel (offset + 4) s
      else if eid = 1 then (s, [])
      else (s, [Effect.log (Log.unknown_record eid gid)])
    else (s, [])

/-- `parse_data_buffer` (lines 362-406). -/
def parse_data_buffer (s : State) (fv : Nat → ℚ) (clock : Nat → Nat)
    (data : List Nat) : State × List Effect :=
  parse_records fv clock data data.length 0 s

/-! ## ResponseDecoder: `process_complete_response` -/

/-- The success predicate of lines 291-296. -/
def retcode_success (cmd_echo retcode : Nat) : Bool :=
  if cmd_echo = Command.RD_VIRT_STRING % 65536 then decide (retcode = 1)
  else if cmd_echo = Command.RD_VIRT_SFR % 65536 then decide (retcode = 0 ∨ retcode = 1)
  else false

/-- The payload dispatch of lines 304-321, reached only for an accepted
response; `data` is the whole response buffer. -/
def dispatch_payload (s : State) (fv : Nat → ℚ) (clock : Nat → Nat)
    (cmd_echo : Nat) (data : List Nat) : State × List Effect :=
  if cmd_echo = Command.RD_VIRT_STRING % 65536 ∧ data.length > 8 then
    parse_data_buffer s fv clock (data.drop 8)
  else if cmd_echo = Command.RD_VIRT_SFR % 65536 ∧ data.length > 8 then
    if data.length ≥ 12 then
      let temperature := fv (read_u32 data 8)
      if temperature > 0 ∧ temperature < 100 then
        (s, [Effect.log (Log.temperature temperature)]
              ++ (if s.temperature_sensor_ then
                    [Effect.publish Sensor.temperature temperature]
                  else []))
      else (s, [])
    else (s, [])
  else (s, [])

/-- The echoed command code of a response buffer (line 274). -/
def cmd_echo_of (data : List Nat) : Nat := le16 (data.getD 0 0) (data.getD 1 0)

/-- The return code of a response buffer (line 285). -/
def retcode_of (data : List Nat) : Nat :=
  le32 (data.getD 4 0) (data.getD 5 0) (data.getD 6 0) (data.getD 7 0)

/-- `process_complete_response` (lines 261-324). -/
def process_complete_response (s : State) (fv : Nat → ℚ) (clock : Nat → Nat) :
    State × List Effect :=
  let data := s.response_buffer_
  let entry := [Effect.log (Log.processing_complete data.length)]
  if data.length < 4 then
    (reset_response_buffer s, entry ++ [Effect.log Log.response_too_short])
  else
    let cmd_echo := cmd_echo_of data
    let seq := data.getD 3 0
    if data.length < 8 then
      (reset_response_buffer s, entry ++ [Effect.log Log.response_too_short_for_retcode])
    else
      let retcode := retcode_of data
      let header := entry ++ [Effect.log (Log.response cmd_echo seq retcode (data.length - 8))]
      if !retcode_success cmd_echo retcode then
        (reset_response_buffer s,
          header ++ [Effect.log (Log.command_failed cmd_echo retcode)])
      else
        let r := dispatch_payload s fv clock cmd_echo data
        (reset_response_buffer r.1, header ++ r.2)

/-! ## ResponseReassembler: `handle_notification` -/

/-- Lines 225-251 of `handle_notification`: the early returns and the storing
of the fragment.  The first component is `none` when the function returns
early, and otherwise the state in which the completion check of line 256 is
made.  (`reserve` only allocates.) -/
def store_fragment (s : State) (data : List Nat) : Option State × List Effect :=
  if data.length = 0 then (none, [])
  else if s.bytes_received_ = 0 then
    if data.length < 4 then
      (none, [Effect.log (Log.first_packet_too_short data.length)])
    else
      let expected :=
        le32 (data.getD 0 0) (data.getD 1 0) (data.getD 2 0) (data.getD 3 0)
      (some { s with expected_response_size_ := expected,
                     response_buffer_ := s.response_buffer_ ++ data.drop 4,
                     bytes_received_ := (data.length - 4) % 4294967296 },
        [Effect.log (Log.new_response expected)])
  else
    (some { s with response_buffer_ := s.response_buffer_ ++ data,
                   bytes_received_ := (s.bytes_received_ + data.length) % 4294967296 },
      [])

/-- `handle_notification` (lines 224-259).  `data` is the notified value; its
length is the `uint16_t length` argument. -/
def handle_notification (s : State) (fv : Nat → ℚ) (clock : Nat → Nat)
    (data : List Nat) : State × List Effect :=
  match store_fragment s data with
  | (none, es) => (s, es)
  | (some s1, es) =>
    let es1 := es ++ [Effect.log (Log.received s1.bytes_received_ s1.expected_response_size_)]
    if s1.bytes_received_ ≥ s1.expected_response_size_ then
      let r := process_complete_response s1 fv clock
      (r.1, es1 ++ r.2)
    else (s1, es1)

/-! ## SessionSequencer: `loop` and `gattc_event_handler` -/

/-- `loop` (lines 18-41).  `t_check` is the reading inside
`is_response_timeout`, `now` the reading of line 27, `t_data` and `t_temp` the
readings at the end of the two `send_command` calls; `w_data` and `w_temp` are
the link's write statuses for the two requests. -/
def loop (s : State) (t_check now t_data t_temp : Nat) (w_data w_temp : Nat → Int) :
    State × List Effect :=
  let r0 : State × List Effect :=
    if s.bytes_received_ > 0 ∧ is_response_timeout s t_check = true then
      (reset_response_buffer s, [Effect.log Log.response_timeout])
    else (s, [])
  if r0.1.device_initialized_ then
    let now := now % 4294967296
    let r1 : State × List Effect :=
      if sub32 now r0.1.last_update_time_ ≥ UPDATE_INTERVAL_MS then
        let r := request_data r0.1 w_data t_data
        ({ r.1 with last_update_time_ := now }, r.2)
      else (r0.1, [])
    let r2 : State × List Effect :=
      if sub32 now r1.1.last_temperature_time_ ≥ 30000 then
        let r := request_temperature r1.1 w_temp t_temp
        ({ r.1 with last_temperature_time_ := now }, r.2)
      else (r1.1, [])
    (r2.1, r0.2 ++ r1.2 ++ r2.2)
  else r0

/-- What the link layer answers while `discover_services` runs: the handles of
the write and notify characteristics of the RadiaCode service, when found. -/
structure ServiceInfo where
  write_char : Option Nat
  notify_char : Option Nat
  deriving DecidableEq, Repr

/-- `discover_services` (lines 90-127).  `service` is the result of the lookup
of the service (`none` when not found) and `reg_status` the status of
`esp_ble_gattc_register_for_notify`. -/
def discover_services (s : State) (service : Option ServiceInfo) (reg_status : Int) :
    State × List Effect :=
  match service with
  | none => (s, [Effect.log Log.service_not_found])
  | some info =>
    match info.write_char with
    | none => (s, [Effect.log Log.write_char_not_found])
    | some wh =>
      let s1 := { s with write_handle_ := wh % 65536 }
      match info.notify_char with
      | none => (s1, [Effect.log Log.notify_char_not_found])
      | some nh =>
        let s2 := { s1 with notify_handle_ := nh % 65536 }
        if reg_status ≠ ESP_OK then (s2, [Effect.log (Log.register_failed reg_status)])
        else ({ s2 with services_discovered_ := true }, [Effect.log Log.services_discovered])

/-- The GATT client events the handler distinguishes, with the parameters it
reads. -/
inductive GattcEvent where
  | open_evt (status_ok : Bool)
  | disconnect_evt
  | search_cmpl_evt (service : Option ServiceInfo) (reg_status : Int)
  | reg_for_notify_evt (status_ok : Bool)
  | notify_evt (handle : Nat) (value : List Nat)
  | other_evt

/-- `gattc_event_handler` (lines 52-88). -/
def gattc_event_handler (s : State) (fv : Nat → ℚ) (clock : Nat → Nat)
    (wstatus : Nat → Int) (millis : Nat) (event : GattcEvent) : State × List Effect :=
  match event with
  | GattcEvent.open_evt ok => (s, if ok then [Effect.log Log.connected] else [])
  | GattcEvent.disconnect_evt =>
    ({ s with services_discovered_ := false, device_initialized_ := false },
      [Effect.log Log.disconnected])
  | GattcEvent.search_cmpl_evt service reg_status => discover_services s service reg_status
  | GattcEvent.reg_for_notify_evt ok =>
    if ok then
      let r := initialize_device s wstatus millis
      (r.1, [Effect.log Log.notifications_registered] ++ r.2)
    else (s, [])
  | GattcEvent.notify_evt handle value =>
    if handle = s.notify_handle_ then handle_notification s fv clock value else (s, [])
  | GattcEvent.other_evt => (s, [])

/-! ## Observers used by the theorems -/

/-- One call of `send_command`: its arguments, the write statuses the link
reports during it and the clock reading at its end. -/
structure Call where
  cmd : Nat
  payload : List Nat
  wstatus : Nat → Int
  millis : Nat

/-- The state after a series of `send_command` calls. -/
def send_commands (s : State) : List Call → State
  | [] => s
  | c :: cs => send_commands (send_command s c.cmd c.payload c.wstatus c.millis).1 cs

/-- A byte string cut into consecutive fragments of `k` bytes, the last one
possibly shorter. -/
def fragments (k : Nat) : Nat → List Nat → List (List Nat)
  | 0, _ => []
  | fuel + 1, l => if l = [] then [] else l.take k :: fragments k fuel (l.drop k)

/-- The state after a series of notifications; `clock j` is the clock of the
`j`-th one. -/
def feed (s : State) (fv : Nat → ℚ) (clock : Nat → Nat → Nat) : List (List Nat) → State
  | [] => s
  | f :: fs => feed (handle_notification s fv (clock 0) f).1 fv (fun j => clock (j + 1)) fs

/-- The states on which `handle_notification` calls
`process_complete_response` (line 257) while a series of notifications is
delivered, in order. -/
def completions (s : State) (fv : Nat → ℚ) (clock : Nat → Nat → Nat) :
    List (List Nat) → List State
  | [] => []
  | f :: fs =>
    (match store_fragment s f with
      | (some s1, _) =>
        if s1.bytes_received_ ≥ s1.expected_response_size_ then [s1] else []
      | (none, _) => [])
      ++ completions (handle_notification s fv (clock 0) f).1 fv (fun j => clock (j + 1)) fs

/-- The log line that opens `process_complete_response` (line 262). -/
def is_entry_log : Effect → Bool
  | Effect.log (Log.processing_complete _) => true
  | _ => false

/-- The three warnings with which `process_complete_response` rejects a
response (lines 265, 280, 299). -/
def is_rejection : Effect → Bool
  | Effect.log Log.response_too_short => true
  | Effect.log Log.response_too_short_for_retcode => true
  | Effect.log (Log.command_failed _ _) => true
  | _ => false

/-- A telemetry publish. -/
def is_publish : Effect → Bool
  | Effect.publish _ _ => true
  | _ => false

/-- The effects of the payload dispatch: telemetry publishes and the
radiation, accumulated-dose, temperature and unknown-record log lines. -/
def is_telemetry : Effect → Bool
  | Effect.publish _ _ => true
  | Effect.log (Log.radiation _ _ _) => true
  | Effect.log (Log.accumulated_dose _) => true
  | Effect.log (Log.temperature _) => true
  | Effect.log (Log.unknown_record _ _) => true
  | _ => false

/-- A reassembler with nothing stored: empty buffer, no bytes counted, no
expected size. -/
def idle (s : State) : Prop :=
  s.response_buffer_ = [] ∧ s.bytes_received_ = 0 ∧ s.expected_response_size_ = 0

/-- The four little-endian bytes of a 32-bit length, the prefix of an inbound
response. -/
def size_header (n : Nat) : List Nat :=
  [n % 256, n / 256 % 256, n / 65536 % 256, n / 16777216 % 256]

/-- The body length the parser steps over for a record kind it knows (lines
378-395), `none` for the kinds at which it stops (lines 397-404). -/
def known_body_length (eid gid : Nat) : Option Nat :=
  if eid = 0 ∧ gid = 0 then some 19
  else if eid = 0 ∧ gid = 1 then some 8
  else if eid = 0 ∧ gid = 2 then some 16
  else if eid = 0 ∧ gid = 7 then some 4
  else none

/-- A complete known record, as a pair of a 7-byte header and a body of the
full length of its kind. -/
def complete_record (r : List Nat × List Nat) : Prop :=
  r.1.length = 7 ∧ known_body_length (r.1.getD 1 0) (r.1.getD 2 0) = some r.2.length

instance (r : List Nat × List Nat) : Decidable (complete_record r) := by
  unfold complete_record
  exact inferInstance

/-- The bytes of a series of records, one after the other. -/
def encode_records : List (List Nat × List Nat) → List Nat
  | [] => []
  | r :: rs => r.1 ++ r.2 ++ encode_records rs

/-- What the parser does with the body of one complete known record: a (0,0)
body is decoded and emitted, the other kinds are skipped. -/
def record_action (s : State) (fv : Nat → ℚ) (millis : Nat) (r : List Nat × List Nat) :
    State × List Effect :=
  if r.1.getD 1 0 = 0 ∧ r.1.getD 2 0 = 0 then
    emit_realtime_record s fv millis
      { count_rate := read_u32 r.2 4, dose_rate := read_u32 r.2 8 }
  else (s, [])

/-- The radiation log line, one per decoded `RealTimeRecord` (line 433). -/
def is_radiation_log : Effect → Bool
  | Effect.log (Log.radiation _ _ _) => true
  | _ => false

/-- An accumulated-dose report handed to the external sink (line 451). -/
def is_dose_report : Effect → Bool
  | Effect.publish Sensor.dose_accumulated _ => true
  | _ => false

/-- A publish to the sink `k`. -/
def is_publish_to (k : Sensor) : Effect → Bool
  | Effect.publish k' _ => decide (k' = k)
  | _ => false

/-- The indices, relative to the start of the payload, of the bytes that
`parse_realtime_record` reads when it is handed the payload from index `base`
on with `length` bytes left: none when the length check of line 409 fails, and
otherwise the eight bytes of the two `memcpy` calls (lines 417-418), which
start 4 and 8 bytes into the body. -/
def parse_realtime_record_reads (base length : Nat) : List Nat :=
  if length < 19 then []
  else (List.range 4).map (fun j => base + 4 + j)
    ++ (List.range 4).map (fun j => base + 4 + 4 + j)

/-- What a run of the `while` loop of `parse_data_buffer` does, with its memory
accesses and cursor movements written down: the result, the indices of the
payload bytes read, in order, the cursor at the start and at the end of each
iteration, and whether the loop left through its own condition or a `break`
(`false`: the fuel ran out with the loop condition still true). -/
structure Walk where
  result : State × List Effect
  reads : List Nat
  steps : List (Nat × Nat)
  finished : Bool

/-- The `while` loop of `parse_data_buffer` (lines 368-405) from cursor
`offset`, as `parse_records`, recording every `data[...]` access of the loop
and of `parse_realtime_record` and every cursor movement. -/
def parse_walk (fv : Nat → ℚ) (clock : Nat → Nat) (data : List Nat) :
    Nat → Nat → State → Walk
  | 0, start, s =>
    { result := (s, []), reads := [], steps := [],
      finished := decide (data.length < start + 7) }
  | fuel + 1, start, s =>
    if start + 7 ≤ data.length then
      let eid := data.getD (start + 1) 0
      let gid := data.getD (start + 2) 0
      let header_reads := [start + 1, start + 2]
      let offset := start + 7
      if eid = 0 ∧ gid = 0 then
        let r :=
          if offset + 19 ≤ data.length then
            parse_realtime_record s fv (clock offset) (data.drop offset)
          else (s, [])
        let body_reads :=
          if offset + 19 ≤ data.length then
            parse_realtime_record_reads offset (data.length - offset)
          else []
        let w := parse_walk fv clock data fuel (offset + 19) r.1
        { result := (w.result.1, r.2 ++ w.result.2),
          reads := header_reads ++ body_reads ++ w.reads,
          steps := (start, offset + 19) :: w.steps,
          finished := w.finished }
      else if eid = 0 ∧ gid = 1 then
        let w := parse_walk fv clock data fuel (offset + 8) s
        { w with reads := header_reads ++ w.reads, steps := (start, offset + 8) :: w.steps }
      else if eid = 0 ∧ gid = 2 then
        let w := parse_walk fv clock data fuel (offset + 16) s
        { w with reads := header_reads ++ w.reads, steps := (start, offset + 16) :: w.steps }
      else if eid = 0 ∧ gid = 7 then
        let w := parse_walk fv clock data fuel (offset + 4) s
        { w with reads := header_reads ++ w.reads, steps := (start, offset + 4) :: w.steps }
      else if eid = 1 then
        { result := (s, []), reads := header_reads, steps := [(start, offset)],
          finished := true }
      else
        { result := (s, [Effect.log (Log.unknown_record eid gid)]), reads := header_reads,
          steps := [(start, offset)], finished := true }
    else { result := (s, []), reads := [], steps := [], finished := true }

/-! # Theorems -/

/-! ## Machine arithmetic lemmas -/

theorem and_ff_mod (x : Nat) : (x &&& 0xFF) % 256 = x % 256 := by
  have h := Nat.and_pow_two_sub_one_eq_mod x 8
  norm_num at h
  omega

theorem shr_and_ff_mod (x k : Nat) : ((x >>> k) &&& 0xFF) % 256 = x / 2 ^ k % 256 := by
  rw [and_ff_mod, Nat.shiftRight_eq_div_pow]

theorem or_shl_eq_add (a b i : Nat) (h : a < 2 ^ i) : a ||| (b <<< i) = a + b * 2 ^ i := by
  rw [Nat.shiftLeft_eq, Nat.or_comm, Nat.mul_comm, ← Nat.mul_add_lt_is_or h]
  omega

theorem le32_eq_add (b0 b1 b2 b3 : Nat) (h0 : b0 < 256) (h1 : b1 < 256) (h2 : b2 < 256)
    (h3 : b3 < 256) :
    le32 b0 b1 b2 b3 = b0 + b1 * 256 + b2 * 65536 + b3 * 16777216 := by
  unfold le32
  rw [or_shl_eq_add b0 b1 8 (by omega)]
  rw [or_shl_eq_add _ b2 16 (by norm_num; omega)]
  rw [or_shl_eq_add _ b3 24 (by norm_num; omega)]
  norm_num
  omega

theorem le16_eq_add (b0 b1 : Nat) (h0 : b0 < 256) (h1 : b1 < 256) :
    le16 b0 b1 = b0 + b1 * 256 := by
  unfold le16
  rw [or_shl_eq_add b0 b1 8 (by omega)]
  norm_num
  omega

theorem le32_of_bytes (n : Nat) (h : n < 4294967296) :
    le32 (n % 256) (n / 256 % 256) (n / 65536 % 256) (n / 16777216 % 256) = n := by
  rw [le32_eq_add _ _ _ _ (Nat.mod_lt _ (by decide)) (Nat.mod_lt _ (by decide))
    (Nat.mod_lt _ (by decide)) (Nat.mod_lt _ (by decide))]
  omega

theorem id_bytes_eq (n : Nat) :
    id_bytes n = [n % 256, n / 256 % 256, n / 65536 % 256, n / 16777216 % 256] := by
  simp only [id_bytes, and_ff_mod, Nat.shiftRight_eq_div_pow]

/-! ## The chunk loop -/

theorem writes_append (a b : List Effect) : writes (a ++ b) = writes a ++ writes b := by
  induction a with
  | nil => rfl
  | cons e es ih => cases e <;> simp [writes, ih]

theorem writes_send_chunks_step (handle : Nat) (packet : List Nat) (wstatus : Nat → Int)
    (fuel i : Nat) (hi : i < packet.length) :
    writes (send_chunks handle packet wstatus (fuel + 1) i)
      = (packet.drop i).take 18 :: writes (send_chunks handle packet wstatus fuel (i + 18)) := by
  have htake : (packet.drop i).take (min 18 (packet.length - i)) = (packet.drop i).take 18 := by
    rcases Nat.le_total 18 (packet.length - i) with h | h
    · rw [Nat.min_eq_left h]
    · rw [Nat.min_eq_right h, List.take_of_length_le (by simp),
        List.take_of_length_le (by simpa using h)]
  simp only [send_chunks, hi, if_true, BLE_CHUNK_SIZE, writes_append, htake]
  by_cases hw : wstatus i = ESP_OK <;> simp [writes, hw]

theorem writes_send_chunks_stop (handle : Nat) (packet : List Nat) (wstatus : Nat → Int)
    (fuel i : Nat) (hi : packet.length ≤ i) :
    writes (send_chunks handle packet wstatus fuel i) = [] := by
  cases fuel with
  | zero => rfl
  | succ f => simp [send_chunks, Nat.not_lt.mpr hi, writes]

/-- With enough fuel the chunk loop writes, from index `i`, fragments whose
concatenation is the packet from `i` on; each is non-empty and at most 18 bytes
long, all but the last are exactly 18 bytes, and their number is
`ceil((size - i) / 18)`. -/
theorem writes_send_chunks (handle : Nat) (packet : List Nat) (wstatus : Nat → Int) :
    ∀ (fuel i : Nat), packet.length ≤ i + fuel →
      (writes (send_chunks handle packet wstatus fuel i)).flatten = packet.drop i
      ∧ (∀ f ∈ writes (send_chunks handle packet wstatus fuel i), 0 < f.length ∧ f.length ≤ 18)
      ∧ (∀ f ∈ (writes (send_chunks handle packet wstatus fuel i)).dropLast, f.length = 18)
      ∧ (writes (send_chunks handle packet wstatus fuel i)).length
          = (packet.length - i + 17) / 18 := by
  intro fuel
  induction fuel with
  | zero =>
    intro i h
    have h0 : packet.length ≤ i := by omega
    refine ⟨?_, ?_, ?_, ?_⟩
    · simp [send_chunks, writes, List.drop_eq_nil_of_le h0]
    · simp [send_chunks, writes]
    · simp [send_chunks, writes]
    · simp only [send_chunks, writes, List.length_nil]; omega
  | succ fuel ih =>
    intro i h
    by_cases hi : i < packet.length
    · obtain ⟨h1, h2, h3, h4⟩ := ih (i + 18) (by omega)
      rw [writes_send_chunks_step handle packet wstatus fuel i hi]
      refine ⟨?_, ?_, ?_, ?_⟩
      · rw [List.flatten_cons, h1, ← List.drop_drop, List.take_append_drop]
      · intro f hf
        rcases List.mem_cons.mp hf with rfl | hf
        · simp only [List.length_take, List.length_drop]; omega
        · exact h2 f hf
      · intro f hf
        by_cases hr : writes (send_chunks handle packet wstatus fuel (i + 18)) = []
        · rw [hr] at hf; simp at hf
        · rw [List.dropLast_cons_of_ne_nil hr] at hf
          rcases List.mem_cons.mp hf with rfl | hf
          · have hlen : 0 < (writes (send_chunks handle packet wstatus fuel (i + 18))).length :=
              List.length_pos.mpr hr
            simp only [List.length_take, List.length_drop]; omega
          · exact h3 f hf
      · rw [List.length_cons, h4]; omega
    · have h0 : packet.length ≤ i := Nat.not_lt.mp hi
      rw [writes_send_chunks_stop handle packet wstatus (fuel + 1) i h0]
      refine ⟨?_, ?_, ?_, ?_⟩
      · simp [List.drop_eq_nil_of_le h0]
      · simp
      · simp
      · simp only [List.length_nil]; omega

theorem build_packet_eq (s : State) (c : Nat) (p : List Nat) :
    build_packet s c p =
      [ (4 + p.length) % 4294967296 % 256, (4 + p.length) % 4294967296 / 256 % 256,
        (4 + p.length) % 4294967296 / 65536 % 256,
        (4 + p.length) % 4294967296 / 16777216 % 256,
        c % 65536 % 256, c % 65536 / 256 % 256, 0x00,
        (0x80 + s.sequence_number_ % 32) % 256 ] ++ p := by
  simp only [build_packet, seq_byte, and_ff_mod, Nat.shiftRight_eq_div_pow]

theorem writes_send_command (s : State) (c : Nat) (p : List Nat) (wstatus : Nat → Int)
    (millis : Nat) (hs : s.services_discovered_ = true) :
    writes (send_command s c p wstatus millis).2
      = writes (send_chunks s.write_handle_ (build_packet s c p) wstatus
          (build_packet s c p).length 0) := by
  simp [send_command, hs, writes_append, writes]

/-! ## CommandFramer -/

/-- C1: for a command code `c` (a `uint16_t`), a payload `p` with
`len(p) + 4 < 2^32` and a state with services discovered, the packet
`send_command` builds, and the bytes it hands to the link (the written
fragments concatenated), are the 4 little-endian bytes of `4 + len(p)`, the 2
little-endian bytes of `c`, `0x00`, the sequence byte, then `p` unchanged; the
packet has `8 + len(p)` bytes and its length field reads `4 + len(p)`, the packet
length without the 4-byte prefix. -/
theorem send_command_packet_layout (s : State) (c : Nat) (p : List Nat)
    (wstatus : Nat → Int) (millis : Nat)
    (hc : c < 65536) (hp : p.length + 4 < 4294967296)
    (hs : s.services_discovered_ = true) :
    build_packet s c p =
        [ (4 + p.length) % 256, (4 + p.length) / 256 % 256,
          (4 + p.length) / 65536 % 256, (4 + p.length) / 16777216 % 256,
          c % 256, c / 256 % 256, 0x00, 0x80 + s.sequence_number_ % 32 ] ++ p
      ∧ (writes (send_command s c p wstatus millis).2).flatten = build_packet s c p
      ∧ (build_packet s c p).length = 8 + p.length
      ∧ le32 ((build_packet s c p).getD 0 0) ((build_packet s c p).getD 1 0)
            ((build_packet s c p).getD 2 0) ((build_packet s c p).getD 3 0)
          = (build_packet s c p).length - 4 := by
  have hb := build_packet_eq s c p
  rw [Nat.mod_eq_of_lt (show 4 + p.length < 4294967296 by omega), Nat.mod_eq_of_lt hc,
    Nat.mod_eq_of_lt (show 0x80 + s.sequence_number_ % 32 < 256 by omega)] at hb
  refine ⟨hb, ?_, ?_, ?_⟩
  · rw [writes_send_command s c p wstatus millis hs]
    have h := (writes_send_chunks s.write_handle_ (build_packet s c p) wstatus
      (build_packet s c p).length 0 (by omega)).1
    simpa using h
  · rw [hb]; simp; omega
  · rw [hb]
    simp only [List.cons_append, List.getD_cons_zero, List.getD_cons_succ, List.length_cons,
      List.nil_append]
    rw [le32_of_bytes _ (by omega)]
    omega

/-- C1 at a concrete input: command `0x0826`, payload `00 01 00 00`, counter 3. -/
theorem send_command_packet_layout_witness :
    build_packet { State.fresh false false false false false with
        services_discovered_ := true, sequence_number_ := 3 } 0x0826 [0, 1, 0, 0]
      = [8, 0, 0, 0, 0x26, 0x08, 0x00, 0x83, 0, 1, 0, 0] :=
  (send_command_packet_layout
    { State.fresh false false false false false with
        services_discovered_ := true, sequence_number_ := 3 }
    0x0826 [0, 1, 0, 0] (fun _ => 0) 1000 (by decide) (by decide) rfl).1

/-- C2: the fragments `send_command` hands to the link write, concatenated in
the order written, equal the packet byte for byte; every fragment is non-empty
and at most 18 bytes long, every fragment except the last is exactly 18 bytes,
and there are `ceil(packet length / 18)` fragments, whatever statuses
`wstatus` the individual writes report. -/
theorem send_command_fragments (s : State) (c : Nat) (p : List Nat)
    (wstatus : Nat → Int) (millis : Nat) (hs : s.services_discovered_ = true) :
    (writes (send_command s c p wstatus millis).2).flatten = build_packet s c p
      ∧ (∀ f ∈ writes (send_command s c p wstatus millis).2, 0 < f.length ∧ f.length ≤ 18)
      ∧ (∀ f ∈ (writes (send_command s c p wstatus millis).2).dropLast, f.length = 18)
      ∧ (writes (send_command s c p wstatus millis).2).length
          = ((build_packet s c p).length + 17) / 18 := by
  rw [writes_send_command s c p wstatus millis hs]
  have h := writes_send_chunks s.write_handle_ (build_packet s c p) wstatus
    (build_packet s c p).length 0 (by omega)
  simpa using h

/-- C2 at a concrete input: a 38-byte packet goes out as fragments of 18, 18 and
2 bytes although the second write reports a failure. -/
theorem send_command_fragments_witness :
    (writes (send_command { State.fresh false false false false false with
        services_discovered_ := true } 0x0826 (List.replicate 30 7)
        (fun i => if i = 18 then 5 else 0) 1000).2).length = 3 := by
  have h := (send_command_fragments { State.fresh false false false false false with
        services_discovered_ := true } 0x0826 (List.replicate 30 7)
        (fun i => if i = 18 then 5 else 0) 1000 rfl).2.2.2
  rw [h]
  decide

/-! ## SessionSequencer: the sequence byte -/

theorem send_command_state (s : State) (c : Nat) (p : List Nat) (wstatus : Nat → Int)
    (millis : Nat) (hs : s.services_discovered_ = true) :
    (send_command s c p wstatus millis).1
      = { reset_response_buffer { s with sequence_number_ := (s.sequence_number_ + 1) % 256 }
          with response_start_time_ := millis % 4294967296 } := by
  simp [send_command, hs]

theorem send_commands_counter (calls : List Call) :
    ∀ s : State, s.services_discovered_ = true → s.sequence_number_ < 256 →
      (send_commands s calls).services_discovered_ = true
      ∧ (send_commands s calls).sequence_number_ = (s.sequence_number_ + calls.length) % 256 := by
  induction calls with
  | nil =>
    intro s hs hlt
    exact ⟨hs, by simp [send_commands, Nat.mod_eq_of_lt hlt]⟩
  | cons c cs ih =>
    intro s hs hlt
    have hst := send_command_state s c.cmd c.payload c.wstatus c.millis hs
    obtain ⟨h1, h2⟩ := ih (send_command s c.cmd c.payload c.wstatus c.millis).1
      (by rw [hst]; simpa [reset_response_buffer] using hs)
      (by rw [hst]; simp only [reset_response_buffer]; omega)
    refine ⟨h1, ?_⟩
    simp only [send_commands]
    rw [h2, hst]
    simp only [reset_response_buffer, List.length_cons]
    omega

/-- C3: from a fresh session (counter 0) with services discovered, after any
`k - 1` framed commands `calls` the `k`-th command `c` goes out with sequence
byte `0x80 + ((k - 1) mod 32)`, also once the 8-bit counter has wrapped; that
byte lies in `0x80..0x9F` with its high bit set, and the counter, which holds
`(k - 1) mod 256` before the command, holds `k mod 256` after it, whatever
statuses the fragment writes report. -/
theorem sequence_byte_cycle (s : State) (calls : List Call) (c : Call)
    (h0 : s.sequence_number_ = 0) (hs : s.services_discovered_ = true) :
    (send_commands s calls).sequence_number_ = calls.length % 256
      ∧ (writes (send_command (send_commands s calls) c.cmd c.payload c.wstatus
            c.millis).2).flatten.getD 7 0 = 0x80 + calls.length % 32
      ∧ 0x80 ≤ 0x80 + calls.length % 32 ∧ 0x80 + calls.length % 32 ≤ 0x9F
      ∧ (0x80 + calls.length % 32) / 128 % 2 = 1
      ∧ (send_command (send_commands s calls) c.cmd c.payload c.wstatus
            c.millis).1.sequence_number_ = (calls.length + 1) % 256 := by
  obtain ⟨h1, h2⟩ := send_commands_counter calls s hs (by omega)
  rw [h0, Nat.zero_add] at h2
  refine ⟨h2, ?_, by omega, by omega, by omega, ?_⟩
  · have hw := (writes_send_chunks (send_commands s calls).write_handle_
      (build_packet (send_commands s calls) c.cmd c.payload) c.wstatus
      (build_packet (send_commands s calls) c.cmd c.payload).length 0 (by omega)).1
    rw [writes_send_command _ _ _ _ _ h1, hw, List.drop_zero, build_packet_eq, h2]
    simp only [List.cons_append, List.getD_cons_zero, List.getD_cons_succ]
    omega
  · rw [send_command_state _ _ _ _ _ h1]
    simp only [reset_response_buffer]
    omega

/-- C3 at a concrete run: after 32 commands the 33rd goes out with sequence
byte `0x80`, the byte of the 1st. -/
theorem sequence_byte_cycle_witness :
    (writes (send_command
        (send_commands { State.fresh false false false false false with
            services_discovered_ := true }
          (List.replicate 32 ⟨0x0826, [0, 1, 0, 0], fun _ => 0, 0⟩))
        0x0824 [0x24, 0x80, 0, 0] (fun _ => 1) 7).2).flatten.getD 7 0 = 0x80 :=
  (sequence_byte_cycle
    { State.fresh false false false false false with services_discovered_ := true }
    (List.replicate 32 ⟨0x0826, [0, 1, 0, 0], fun _ => 0, 0⟩)
    ⟨0x0824, [0x24, 0x80, 0, 0], fun _ => 1, 7⟩ rfl rfl).2.1

/-! ## ResponseReassembler -/

theorem store_fragment_first (s : State) (d : List Nat) (h0 : s.bytes_received_ = 0)
    (hd : 4 ≤ d.length) :
    store_fragment s d =
      (some { s with
          expected_response_size_ :=
            le32 (d.getD 0 0) (d.getD 1 0) (d.getD 2 0) (d.getD 3 0),
          response_buffer_ := s.response_buffer_ ++ d.drop 4,
          bytes_received_ := (d.length - 4) % 4294967296 },
        [Effect.log (Log.new_response
          (le32 (d.getD 0 0) (d.getD 1 0) (d.getD 2 0) (d.getD 3 0)))]) := by
  have h1 : ¬ d.length = 0 := by omega
  have h2 : ¬ d.length < 4 := by omega
  simp [store_fragment, h0, h1, h2]

theorem store_fragment_short (s : State) (d : List Nat) (h0 : s.bytes_received_ = 0)
    (hd : d.length < 4) :
    (store_fragment s d).1 = none := by
  by_cases h : d.length = 0
  · simp [store_fragment, h]
  · simp [store_fragment, h, h0, hd]

theorem store_fragment_next (s : State) (d : List Nat) (h0 : s.bytes_received_ ≠ 0)
    (hd : d ≠ []) :
    store_fragment s d =
      (some { s with
          response_buffer_ := s.response_buffer_ ++ d,
          bytes_received_ := (s.bytes_received_ + d.length) % 4294967296 }, []) := by
  have h1 : ¬ d.length = 0 := by
    intro h; exact hd (List.length_eq_zero.mp h)
  simp [store_fragment, h0, h1]

theorem handle_notification_of_none (s : State) (fv : Nat → ℚ) (clock : Nat → Nat)
    (d : List Nat) (h : (store_fragment s d).1 = none) :
    handle_notification s fv clock d = (s, (store_fragment s d).2) := by
  unfold handle_notification
  rcases hst : store_fragment s d with ⟨o, es⟩
  rw [hst] at h
  cases o with
  | none => rfl
  | some s1 => cases h

theorem handle_notification_of_some (s s1 : State) (es : List Effect) (fv : Nat → ℚ)
    (clock : Nat → Nat) (d : List Nat) (h : store_fragment s d = (some s1, es)) :
    handle_notification s fv clock d =
      if s1.bytes_received_ ≥ s1.expected_response_size_ then
        ((process_complete_response s1 fv clock).1,
          es ++ [Effect.log (Log.received s1.bytes_received_ s1.expected_response_size_)]
            ++ (process_complete_response s1 fv clock).2)
      else
        (s1, es ++ [Effect.log (Log.received s1.bytes_received_ s1.expected_response_size_)]) := by
  unfold handle_notification
  rw [h]

theorem completions_cons_none (s : State) (fv : Nat → ℚ) (clock : Nat → Nat → Nat)
    (f : List Nat) (fs : List (List Nat)) (h : (store_fragment s f).1 = none) :
    completions s fv clock (f :: fs) = completions s fv (fun j => clock (j + 1)) fs := by
  rw [completions, handle_notification_of_none s fv (clock 0) f h]
  rcases hst : store_fragment s f with ⟨o, es⟩
  rw [hst] at h
  cases o with
  | none => rfl
  | some s1 => cases h

theorem completions_cons_incomplete (s s1 : State) (es : List Effect) (fv : Nat → ℚ)
    (clock : Nat → Nat → Nat) (f : List Nat) (fs : List (List Nat))
    (h : store_fragment s f = (some s1, es))
    (hlt : s1.bytes_received_ < s1.expected_response_size_) :
    completions s fv clock (f :: fs) = completions s1 fv (fun j => clock (j + 1)) fs := by
  have hn : ¬ s1.bytes_received_ ≥ s1.expected_response_size_ := by omega
  rw [completions, handle_notification_of_some s s1 es fv (clock 0) f h, h]
  simp [hn]

theorem completions_single_complete (s s1 : State) (es : List Effect) (fv : Nat → ℚ)
    (clock : Nat → Nat → Nat) (f : List Nat)
    (h : store_fragment s f = (some s1, es))
    (hge : s1.bytes_received_ ≥ s1.expected_response_size_) :
    completions s fv clock [f] = [s1] := by
  rw [completions, h]
  simp [hge, completions]

/-- Fragments that are all too short to open a response leave an empty
reassembler untouched and never reach the decoder. -/
theorem completions_all_short (fv : Nat → ℚ) (fs : List (List Nat)) :
    ∀ (s : State) (clock : Nat → Nat → Nat), s.bytes_received_ = 0 →
      (∀ f ∈ fs, f.length < 4) →
      completions s fv clock fs = [] ∧ feed s fv clock fs = s := by
  induction fs with
  | nil => intro s clock _ _; exact ⟨rfl, rfl⟩
  | cons f fs ih =>
    intro s clock h0 hall
    have hnone := store_fragment_short s f h0 (hall f (List.mem_cons_self _ _))
    obtain ⟨h1, h2⟩ := ih s (fun j => clock (j + 1)) h0
      (fun g hg => hall g (List.mem_cons_of_mem _ hg))
    refine ⟨?_, ?_⟩
    · rw [completions_cons_none s fv clock f fs hnone, h1]
    · rw [feed, handle_notification_of_none s fv (clock 0) f hnone]
      exact h2

/-- Continuation fragments: once some bytes are stored, non-empty fragments
that bring the count exactly to the expected size reach the decoder once, on
the last fragment, with all their bytes appended to the buffer. -/
theorem completions_continue (fv : Nat → ℚ) (fs : List (List Nat)) :
    ∀ (s : State) (clock : Nat → Nat → Nat), fs ≠ [] → (∀ f ∈ fs, f ≠ []) →
      0 < s.bytes_received_ →
      s.bytes_received_ + fs.flatten.length = s.expected_response_size_ →
      s.expected_response_size_ < 4294967296 →
      completions s fv clock fs =
        [{ s with response_buffer_ := s.response_buffer_ ++ fs.flatten,
                  bytes_received_ := s.expected_response_size_ }] := by
  induction fs with
  | nil => intro s clock h; exact absurd rfl h
  | cons f fs ih =>
    intro s clock _ hne hpos hsum hexp
    have hf : f ≠ [] := hne f (List.mem_cons_self _ _)
    have hfl : 0 < f.length := List.length_pos.mpr hf
    have hst := store_fragment_next s f (by omega) hf
    rw [List.flatten_cons, List.length_append] at hsum
    have hmod : (s.bytes_received_ + f.length) % 4294967296 = s.bytes_received_ + f.length :=
      Nat.mod_eq_of_lt (by omega)
    rw [hmod] at hst
    by_cases hfs : fs = []
    · subst hfs
      simp only [List.flatten_nil, List.length_nil, Nat.add_zero] at hsum
      rw [completions_single_complete s _ _ fv clock f hst (by simp only; omega)]
      simp [hsum]
    · have hrest : 0 < fs.flatten.length := by
        cases fs with
        | nil => exact absurd rfl hfs
        | cons g gs =>
          have hg : 0 < g.length :=
            List.length_pos.mpr (hne g (List.mem_cons_of_mem _ (List.mem_cons_self _ _)))
          simp only [List.flatten_cons, List.length_append]
          omega
      rw [completions_cons_incomplete s _ _ fv clock f fs hst (by simp only; omega)]
      rw [ih _ (fun j => clock (j + 1)) hfs (fun g hg => hne g (List.mem_cons_of_mem _ hg))
        (by simp only; omega) (by simp only; omega) (by simpa using hexp)]
      simp [List.append_assoc]

theorem fragments_spec (k : Nat) (hk : 0 < k) :
    ∀ (fuel : Nat) (l : List Nat), l.length ≤ fuel →
      (fragments k fuel l).flatten = l
      ∧ ∀ f ∈ fragments k fuel l, f ≠ [] ∧ f.length ≤ k := by
  intro fuel
  induction fuel with
  | zero =>
    intro l hl
    have : l = [] := List.length_eq_zero.mp (by omega)
    subst this
    simp [fragments]
  | succ fuel ih =>
    intro l hl
    by_cases hnil : l = []
    · subst hnil; simp [fragments]
    · have hpos : 0 < l.length := List.length_pos.mpr hnil
      obtain ⟨h1, h2⟩ := ih (l.drop k) (by simp only [List.length_drop]; omega)
      simp only [fragments, hnil, if_false]
      refine ⟨?_, ?_⟩
      · rw [List.flatten_cons, h1, List.take_append_drop]
      · intro f hf
        rcases List.mem_cons.mp hf with rfl | hf
        · refine ⟨?_, ?_⟩
          · intro h
            have := congrArg List.length h
            simp only [List.length_take, List.length_nil] at this
            omega
          · simp only [List.length_take]; omega
        · exact h2 f hf

theorem fragments_cons (k fuel : Nat) (l : List Nat) (hl : l ≠ []) :
    fragments k (fuel + 1) l = l.take k :: fragments k fuel (l.drop k) := by
  simp [fragments, hl]

/-- A response cut into non-empty fragments whose first one carries the size
prefix and at least one byte of the body reaches the decoder once, with the
body as buffer and the declared size as count. -/
theorem completions_split (s : State) (fv : Nat → ℚ) (clock : Nat → Nat → Nat)
    (body first : List Nat) (rest : List (List Nat))
    (hbuf : s.response_buffer_ = []) (h0 : s.bytes_received_ = 0)
    (hlen : body.length < 4294967296)
    (hfirst : 5 ≤ first.length) (hne : ∀ f ∈ rest, f ≠ [])
    (hcat : first ++ rest.flatten = size_header body.length ++ body) :
    completions s fv clock (first :: rest) =
      [{ s with expected_response_size_ := body.length, response_buffer_ := body,
                bytes_received_ := body.length }] := by
  obtain ⟨b1, hb1, hbody⟩ : ∃ b1, first = size_header body.length ++ b1
      ∧ body = b1 ++ rest.flatten := by
    rcases List.append_eq_append_iff.mp hcat with ⟨a, ha, hb⟩ | ⟨c, hc, _⟩
    · have hl := congrArg List.length ha
      simp only [List.length_append, size_header, List.length_cons, List.length_nil] at hl
      omega
    · exact ⟨c, hc, by assumption⟩
  have hb1len : first.length = 4 + b1.length := by
    rw [hb1]; simp [size_header]; omega
  have hexp : le32 (first.getD 0 0) (first.getD 1 0) (first.getD 2 0) (first.getD 3 0)
      = body.length := by
    rw [hb1]
    simp only [size_header, List.cons_append, List.getD_cons_zero, List.getD_cons_succ]
    exact le32_of_bytes _ hlen
  have hdrop : first.drop 4 = b1 := by rw [hb1]; simp [size_header]
  have hblen : body.length = b1.length + rest.flatten.length := by
    conv_lhs => rw [hbody]
    simp
  have hst := store_fragment_first s first h0 (by omega)
  rw [hexp, hdrop, hbuf, List.nil_append,
    Nat.mod_eq_of_lt (show first.length - 4 < 4294967296 by omega)] at hst
  by_cases hrest : rest = []
  · subst hrest
    simp only [List.flatten_nil, List.append_nil, List.length_nil, Nat.add_zero] at hbody hblen
    rw [completions_single_complete s _ _ fv clock first hst (by simp only; omega)]
    simp only [List.cons.injEq, and_true]
    rw [hb1len, ← hbody]
    simp [hblen]
  · have hpos : 0 < rest.flatten.length := by
      cases rest with
      | nil => exact absurd rfl hrest
      | cons g gs =>
        have hg : 0 < g.length := List.length_pos.mpr (hne g (List.mem_cons_self _ _))
        simp only [List.flatten_cons, List.length_append]
        omega
    rw [completions_cons_incomplete s _ _ fv clock first rest hst (by simp only; omega)]
    rw [completions_continue fv rest _ (fun j => clock (j + 1)) hrest hne
      (by simp only; omega) (by simp only; omega) (by simpa using hlen)]
    simp only [List.cons.injEq, and_true]
    rw [← hbody]

/-- C4, as amended: a complete inbound response (the 4 little-endian bytes of
`expected_size`, then exactly `expected_size >= 8` body bytes) fed to an empty
reassembler as one single fragment or cut into fragments of 18 bytes reaches
`process_complete_response` exactly once, in the same state in both cases:
buffer equal to the body, both counters equal to `expected_size`; so the same
`cmd_echo`, `seq` and `retcode` are decoded.  Cut into fragments of 1 byte it
never reaches the decoder: every fragment is rejected and the state stays as
it was. -/
theorem reassembly_whole_or_chunked (s : State) (fv : Nat → ℚ) (clock : Nat → Nat → Nat)
    (body : List Nat) (hbuf : s.response_buffer_ = []) (h0 : s.bytes_received_ = 0)
    (h8 : 8 ≤ body.length) (hlen : body.length < 4294967296) :
    completions s fv clock [size_header body.length ++ body]
        = [{ s with expected_response_size_ := body.length, response_buffer_ := body,
                    bytes_received_ := body.length }]
      ∧ completions s fv clock
          (fragments 18 (size_header body.length ++ body).length
            (size_header body.length ++ body))
        = [{ s with expected_response_size_ := body.length, response_buffer_ := body,
                    bytes_received_ := body.length }]
      ∧ completions s fv clock
          (fragments 1 (size_header body.length ++ body).length
            (size_header body.length ++ body)) = []
      ∧ feed s fv clock
          (fragments 1 (size_header body.length ++ body).length
            (size_header body.length ++ body)) = s := by
  have hR : (size_header body.length ++ body).length = (3 + body.length) + 1 := by
    simp [size_header]; omega
  have hRne : size_header body.length ++ body ≠ [] := by simp [size_header]
  refine ⟨?_, ?_, ?_⟩
  · exact completions_split s fv clock body _ [] hbuf h0 hlen (by rw [hR]; omega)
      (by simp) (by simp)
  · rw [hR, fragments_cons 18 _ _ hRne]
    obtain ⟨hflat, hall⟩ := fragments_spec 18 (by decide) (3 + body.length)
      ((size_header body.length ++ body).drop 18) (by simp only [List.length_drop]; omega)
    exact completions_split s fv clock body _ _ hbuf h0 hlen
      (by simp only [List.length_take]; omega) (fun f hf => (hall f hf).1)
      (by rw [hflat, List.take_append_drop])
  · obtain ⟨_, hall⟩ := fragments_spec 1 (by decide)
      (size_header body.length ++ body).length (size_header body.length ++ body)
      (Nat.le_refl _)
    exact completions_all_short fv _ s clock h0 (fun f hf => by
      have := (hall f hf).2
      omega)

/-- C4 at a concrete response: the 8-byte body `26 08 00 80 01 00 00 00` sent
whole reaches the decoder as it is. -/
theorem reassembly_whole_or_chunked_witness :
    completions (State.fresh false false false false false) (fun _ => 0) (fun _ _ => 0)
        [size_header 8 ++ [0x26, 0x08, 0x00, 0x80, 1, 0, 0, 0]]
      = [{ State.fresh false false false false false with
            expected_response_size_ := 8,
            response_buffer_ := [0x26, 0x08, 0x00, 0x80, 1, 0, 0, 0],
            bytes_received_ := 8 }] :=
  (reassembly_whole_or_chunked (State.fresh false false false false false) (fun _ => 0)
    (fun _ _ => 0) [0x26, 0x08, 0x00, 0x80, 1, 0, 0, 0] rfl rfl (by decide) (by decide)).1

/-- C4 as stated fails: the response with body `26 08 00 80 01 00 00 00`, fed
byte by byte, hands nothing to `process_complete_response`, while fed whole it
hands over the body. -/
theorem reassembly_single_bytes_never_complete :
    (completions (State.fresh false false false false false) (fun _ => 0) (fun _ _ => 0)
        (fragments 1 12 (size_header 8 ++ [0x26, 0x08, 0x00, 0x80, 1, 0, 0, 0]))).map
          (fun t => t.response_buffer_) = []
      ∧ (completions (State.fresh false false false false false) (fun _ => 0)
          (fun _ _ => 0) [size_header 8 ++ [0x26, 0x08, 0x00, 0x80, 1, 0, 0, 0]]).map
          (fun t => t.response_buffer_) = [[0x26, 0x08, 0x00, 0x80, 1, 0, 0, 0]] := by
  decide

/-- Continuation after a first fragment that carries body bytes: when a
reassembler with no bytes counted accepts a first fragment `d` of at least 5
bytes (the size header and at least one body byte) that does not complete the
response, `handle_notification` treats any further non-empty fragment `f` as a
continuation: the buffer becomes the old buffer followed by the bytes of `f`,
the count grows by `len(f)`, and the expected size stays the value parsed from
`d`; the completion check is then made on that state. -/
theorem continuation_fragment (s s1 : State) (fv : Nat → ℚ) (clock clock2 : Nat → Nat)
    (d f : List Nat)
    (h0 : s.bytes_received_ = 0) (hd : 5 ≤ d.length) (hd16 : d.length < 65536)
    (hinc : d.length - 4 < le32 (d.getD 0 0) (d.getD 1 0) (d.getD 2 0) (d.getD 3 0))
    (h1 : s1 = (handle_notification s fv clock d).1)
    (hf : f ≠ []) (hf16 : f.length < 65536) :
    s1.expected_response_size_ = le32 (d.getD 0 0) (d.getD 1 0) (d.getD 2 0) (d.getD 3 0)
      ∧ s1.response_buffer_ = s.response_buffer_ ++ d.drop 4
      ∧ s1.bytes_received_ = d.length - 4
      ∧ store_fragment s1 f =
          (some { s1 with response_buffer_ := s1.response_buffer_ ++ f,
                          bytes_received_ := s1.bytes_received_ + f.length }, [])
      ∧ handle_notification s1 fv clock2 f =
          if s1.bytes_received_ + f.length ≥ s1.expected_response_size_ then
            ((process_complete_response
                { s1 with response_buffer_ := s1.response_buffer_ ++ f,
                          bytes_received_ := s1.bytes_received_ + f.length } fv clock2).1,
              [Effect.log (Log.received (s1.bytes_received_ + f.length)
                  s1.expected_response_size_)]
                ++ (process_complete_response
                    { s1 with response_buffer_ := s1.response_buffer_ ++ f,
                              bytes_received_ := s1.bytes_received_ + f.length }
                    fv clock2).2)
          else
            ({ s1 with response_buffer_ := s1.response_buffer_ ++ f,
                       bytes_received_ := s1.bytes_received_ + f.length },
              [Effect.log (Log.received (s1.bytes_received_ + f.length)
                  s1.expected_response_size_)]) := by
  have hst := store_fragment_first s d h0 (by omega)
  rw [Nat.mod_eq_of_lt (show d.length - 4 < 4294967296 by omega)] at hst
  have hhn := handle_notification_of_some s _ _ fv clock d hst
  rw [if_neg (by simp only; omega)] at hhn
  rw [hhn] at h1
  subst h1
  have hnext := store_fragment_next
    { s with
      expected_response_size_ := le32 (d.getD 0 0) (d.getD 1 0) (d.getD 2 0) (d.getD 3 0),
      response_buffer_ := s.response_buffer_ ++ d.drop 4,
      bytes_received_ := d.length - 4 } f (by simp only; omega) hf
  rw [Nat.mod_eq_of_lt (by simp only; omega)] at hnext
  refine ⟨rfl, rfl, rfl, hnext, ?_⟩
  rw [handle_notification_of_some _ _ _ fv clock2 f hnext]
  simp

/-- The continuation at a concrete input: after the first fragment
`0A 00 00 00 26 08`, the fragment `00 80` is appended. -/
theorem continuation_fragment_witness :
    store_fragment
        (handle_notification (State.fresh false false false false false) (fun _ => 0)
          (fun _ => 0) [10, 0, 0, 0, 0x26, 0x08]).1 [0x00, 0x80]
      = (some { State.fresh false false false false false with
            expected_response_size_ := 10,
            response_buffer_ := [0x26, 0x08, 0x00, 0x80],
            bytes_received_ := 4 }, []) :=
  (continuation_fragment (State.fresh false false false false false) _ (fun _ => 0)
    (fun _ => 0) (fun _ => 0) [10, 0, 0, 0, 0x26, 0x08] [0x00, 0x80] rfl (by decide)
    (by decide) (by decide) rfl (by decide) (by decide)).2.2.2.1

/-- C5, the code at the failing input: the first fragment `08 00 00 00` (the
size header alone) is accepted and does not complete the response (0 of 8
bytes), yet the next fragment `01 02 03 04 05` is not appended as a
continuation: its first four bytes are parsed as a new expected size
(`0x04030201`) and only `05` is stored. -/
theorem size_only_first_fragment_reparsed :
    (handle_notification (State.fresh false false false false false) (fun _ => 0)
        (fun _ => 0) [8, 0, 0, 0]).1
      = { State.fresh false false false false false with expected_response_size_ := 8 }
    ∧ (handle_notification
        { State.fresh false false false false false with expected_response_size_ := 8 }
        (fun _ => 0) (fun _ => 0) [1, 2, 3, 4, 5]).1
      = { State.fresh false false false false false with
          expected_response_size_ := 67305985,
          response_buffer_ := [5],
          bytes_received_ := 1 } := by
  decide

/-- C6: with no bytes received, `handle_notification` rejects a fragment of
length 0, 1, 2 or 3: the state is returned unchanged (buffer, count, expected
size and wait clock included), the only effect is the warning (nothing at all
for an empty fragment), `process_complete_response` is not invoked, and a
following fragment `g` of length at least 4 is stored as a first fragment. -/
theorem short_first_fragment_rejected (s : State) (fv : Nat → ℚ) (clock : Nat → Nat)
    (f : List Nat) (h0 : s.bytes_received_ = 0) (hf : f.length < 4) :
    handle_notification s fv clock f
        = (s, if f.length = 0 then []
              else [Effect.log (Log.first_packet_too_short f.length)])
      ∧ completions s fv (fun _ => clock) [f] = []
      ∧ (handle_notification s fv clock f).2.filter is_entry_log = []
      ∧ ∀ g : List Nat, 4 ≤ g.length →
          store_fragment (handle_notification s fv clock f).1 g =
            (some { s with
                expected_response_size_ :=
                  le32 (g.getD 0 0) (g.getD 1 0) (g.getD 2 0) (g.getD 3 0),
                response_buffer_ := s.response_buffer_ ++ g.drop 4,
                bytes_received_ := (g.length - 4) % 4294967296 },
              [Effect.log (Log.new_response
                (le32 (g.getD 0 0) (g.getD 1 0) (g.getD 2 0) (g.getD 3 0)))]) := by
  have hnone := store_fragment_short s f h0 hf
  have hhn := handle_notification_of_none s fv clock f hnone
  have heff : (store_fragment s f).2
      = if f.length = 0 then [] else [Effect.log (Log.first_packet_too_short f.length)] := by
    by_cases h : f.length = 0
    · simp [store_fragment, h]
    · simp [store_fragment, h, h0, hf]
  rw [heff] at hhn
  refine ⟨hhn, ?_, ?_, ?_⟩
  · exact (completions_all_short fv [f] s (fun _ => clock) h0 (by simpa using hf)).1
  · rw [hhn]
    by_cases h : f.length = 0 <;> simp [h, is_entry_log]
  · intro g hg
    rw [hhn]
    exact store_fragment_first s g h0 hg

/-- C6 at a concrete input: the 3-byte fragment `08 00 00` is rejected by an
empty reassembler. -/
theorem short_first_fragment_rejected_witness :
    handle_notification (State.fresh false false false false false) (fun _ => 0)
        (fun _ => 0) [8, 0, 0]
      = (State.fresh false false false false false,
          [Effect.log (Log.first_packet_too_short 3)]) :=
  (short_first_fragment_rejected (State.fresh false false false false false) (fun _ => 0)
    (fun _ => 0) [8, 0, 0] rfl (by decide)).1

/-! ## ResponseDecoder -/

theorem telemetry_not_entry (e : Effect) (h : is_telemetry e = true) :
    is_entry_log e = false ∧ is_rejection e = false := by
  cases e with
  | log l => cases l <;> simp_all [is_telemetry, is_entry_log, is_rejection]
  | write_char _ _ => simp [is_entry_log, is_rejection]
  | delay _ => simp [is_entry_log, is_rejection]
  | publish _ _ => simp [is_entry_log, is_rejection]

theorem emit_realtime_record_effects (s : State) (fv : Nat → ℚ) (millis : Nat)
    (r : RealTimeRecord) :
    ∀ e ∈ (emit_realtime_record s fv millis r).2, is_telemetry e = true := by
  intro e he
  unfold emit_realtime_record at he
  simp only at he
  split at he
  · simp only [List.mem_append, List.mem_cons, List.mem_singleton] at he
    rcases he with ((((he | he) | he) | he) | he | he)
    · rcases he with rfl | he
      · rfl
      · simp at he
    · split at he <;> simp at he; subst he; rfl
    · split at he <;> simp at he; subst he; rfl
    · split at he <;> simp at he; subst he; rfl
    · subst he; rfl
    · rcases he with rfl | he
      · rfl
      · simp at he
  · simp only [List.mem_append, List.mem_cons, List.mem_singleton] at he
    rcases he with (((he | he) | he) | he)
    · rcases he with rfl | he
      · rfl
      · simp at he
    · split at he <;> simp at he; subst he; rfl
    · split at he <;> simp at he; subst he; rfl
    · split at he <;> simp at he; subst he; rfl

theorem parse_realtime_record_effects (s : State) (fv : Nat → ℚ) (millis : Nat)
    (data : List Nat) :
    ∀ e ∈ (parse_realtime_record s fv millis data).2, is_telemetry e = true := by
  intro e he
  unfold parse_realtime_record at he
  split at he
  · simp at he
  · exact emit_realtime_record_effects _ _ _ _ e he

theorem parse_records_effects (fv : Nat → ℚ) (clock : Nat → Nat) (data : List Nat) :
    ∀ (fuel offset : Nat) (s : State),
      ∀ e ∈ (parse_records fv clock data fuel offset s).2, is_telemetry e = true := by
  intro fuel
  induction fuel with
  | zero => intro offset s e he; simp [parse_records] at he
  | succ fuel ih =>
    intro offset s e he
    unfold parse_records at he
    simp only at he
    split at he
    · split at he
      · simp only [List.mem_append] at he
        rcases he with he | he
        · split at he
          · exact parse_realtime_record_effects _ _ _ _ e he
          · simp at he
        · exact ih _ _ e he
      · split at he
        · exact ih _ _ e he
        · split at he
          · exact ih _ _ e he
          · split at he
            · exact ih _ _ e he
            · split at he
              · simp at he
              · simp only [List.mem_singleton] at he
                subst he; rfl
    · simp at he

theorem dispatch_payload_effects (s : State) (fv : Nat → ℚ) (clock : Nat → Nat)
    (cmd_echo : Nat) (data : List Nat) :
    ∀ e ∈ (dispatch_payload s fv clock cmd_echo data).2, is_telemetry e = true := by
  intro e he
  unfold dispatch_payload at he
  split at he
  · exact parse_records_effects fv clock _ _ _ _ e he
  · split at he
    · split at he
      · simp only at he
        split at he
        · simp only [List.mem_append, List.mem_singleton] at he
          rcases he with he | he
          · subst he; rfl
          · split at he <;> simp at he; subst he; rfl
        · simp at he
      · simp at he
    · simp at he

theorem filter_entry_of_telemetry (l : List Effect) (h : ∀ e ∈ l, is_telemetry e = true) :
    l.filter is_entry_log = [] := by
  induction l with
  | nil => rfl
  | cons e es ih =>
    have he := (telemetry_not_entry e (h e (List.mem_cons_self _ _))).1
    rw [List.filter_cons, he]
    simpa using ih (fun x hx => h x (List.mem_cons_of_mem _ hx))

theorem filter_rejection_of_telemetry (l : List Effect)
    (h : ∀ e ∈ l, is_telemetry e = true) :
    l.filter is_rejection = [] := by
  induction l with
  | nil => rfl
  | cons e es ih =>
    have he := (telemetry_not_entry e (h e (List.mem_cons_self _ _))).2
    rw [List.filter_cons, he]
    simpa using ih (fun x hx => h x (List.mem_cons_of_mem _ hx))

/-- Every path through `process_complete_response` logs its entry line once
and ends in `reset_response_buffer`. -/
theorem process_complete_response_resets (s : State) (fv : Nat → ℚ) (clock : Nat → Nat) :
    (process_complete_response s fv clock).2.filter is_entry_log
        = [Effect.log (Log.processing_complete s.response_buffer_.length)]
      ∧ (process_complete_response s fv clock).1.response_buffer_ = []
      ∧ (process_complete_response s fv clock).1.bytes_received_ = 0
      ∧ (process_complete_response s fv clock).1.expected_response_size_ = 0
      ∧ (process_complete_response s fv clock).1.response_start_time_ = 0 := by
  unfold process_complete_response
  simp only
  split
  · simp [reset_response_buffer, is_entry_log, List.filter_cons]
  · split
    · simp [reset_response_buffer, is_entry_log, List.filter_cons]
    · split
      · simp [reset_response_buffer, is_entry_log, List.filter_cons]
      · refine ⟨?_, by simp [reset_response_buffer], by simp [reset_response_buffer],
          by simp [reset_response_buffer], by simp [reset_response_buffer]⟩
        rw [List.filter_append, filter_entry_of_telemetry _ (dispatch_payload_effects _ _ _ _ _)]
        simp [is_entry_log, List.filter_cons]

theorem store_fragment_effects (s : State) (d : List Nat) :
    (store_fragment s d).2.filter is_entry_log = [] := by
  unfold store_fragment
  split
  · rfl
  · split
    · split <;> simp [is_entry_log, List.filter_cons]
    · rfl

/-- C7: whenever a fragment is stored (line 251 is reached, giving state `s1`)
and the accumulated count is at least the expected size, `handle_notification`
calls `process_complete_response` on `s1`, whose buffer is the accumulated
buffer, exactly once (one entry line, carrying that buffer's length), and
returns with the reassembler reset: buffer empty, count 0, expected size 0,
wait clock cleared - on every decoding outcome. -/
theorem completion_decodes_once_and_resets (s s1 : State) (es : List Effect)
    (fv : Nat → ℚ) (clock : Nat → Nat) (d : List Nat)
    (hst : store_fragment s d = (some s1, es))
    (hge : s1.bytes_received_ ≥ s1.expected_response_size_) :
    handle_notification s fv clock d =
        ((process_complete_response s1 fv clock).1,
          es ++ [Effect.log (Log.received s1.bytes_received_ s1.expected_response_size_)]
            ++ (process_complete_response s1 fv clock).2)
      ∧ completions s fv (fun _ => clock) [d] = [s1]
      ∧ (handle_notification s fv clock d).2.filter is_entry_log
          = [Effect.log (Log.processing_complete s1.response_buffer_.length)]
      ∧ (handle_notification s fv clock d).1.response_buffer_ = []
      ∧ (handle_notification s fv clock d).1.bytes_received_ = 0
      ∧ (handle_notification s fv clock d).1.expected_response_size_ = 0
      ∧ (handle_notification s fv clock d).1.response_start_time_ = 0 := by
  have hhn := handle_notification_of_some s s1 es fv clock d hst
  rw [if_pos hge] at hhn
  obtain ⟨p1, p2, p3, p4, p5⟩ := process_complete_response_resets s1 fv clock
  have hes : es.filter is_entry_log = [] := by
    have := store_fragment_effects s d
    rw [hst] at this
    exact this
  refine ⟨hhn, completions_single_complete s s1 es fv (fun _ => clock) d hst hge, ?_, ?_, ?_,
    ?_, ?_⟩
  · rw [hhn]
    simp only [List.filter_append, hes, p1, List.nil_append]
    simp [is_entry_log, List.filter_cons]
  · rw [hhn]; exact p2
  · rw [hhn]; exact p3
  · rw [hhn]; exact p4
  · rw [hhn]; exact p5

/-- C7 at a concrete input: a response with an unknown command code, delivered
whole, is decoded once and the reassembler is reset. -/
theorem completion_decodes_once_and_resets_witness :
    (handle_notification
        { State.fresh false false false false false with response_start_time_ := 77 }
        (fun _ => 0) (fun _ => 0)
        [8, 0, 0, 0, 0x17, 0x00, 0x00, 0x80, 1, 0, 0, 0]).1.response_start_time_ = 0 :=
  (completion_decodes_once_and_resets
    { State.fresh false false false false false with response_start_time_ := 77 }
    { State.fresh false false false false false with
        response_start_time_ := 77, expected_response_size_ := 8,
        response_buffer_ := [0x17, 0x00, 0x00, 0x80, 1, 0, 0, 0], bytes_received_ := 8 }
    [Effect.log (Log.new_response 8)]
    (fun _ => 0) (fun _ => 0) [8, 0, 0, 0, 0x17, 0x00, 0x00, 0x80, 1, 0, 0, 0]
    (by decide) (by decide)).2.2.2.2.2.2

/-! ## Timeout polling in `loop` -/

theorem sub32_eq_int_emod (a b : Nat) :
    (sub32 a b : ℤ) = ((a : ℤ) - (b : ℤ)) % 4294967296 := by
  unfold sub32
  omega

/-- What `loop` does in a tick in which no request is due: only the timeout
check of lines 20-23. -/
theorem loop_quiet (s : State) (t_check now t_data t_temp : Nat) (w_data w_temp : Nat → Int)
    (hquiet : s.device_initialized_ = false
      ∨ (sub32 (now % 4294967296) s.last_update_time_ < UPDATE_INTERVAL_MS
          ∧ sub32 (now % 4294967296) s.last_temperature_time_ < 30000)) :
    loop s t_check now t_data t_temp w_data w_temp =
      if s.bytes_received_ > 0 ∧ is_response_timeout s t_check = true then
        (reset_response_buffer s, [Effect.log Log.response_timeout])
      else (s, []) := by
  unfold loop
  by_cases hto : s.bytes_received_ > 0 ∧ is_response_timeout s t_check = true
  · rw [if_pos hto]
    rcases hquiet with hq | ⟨hq1, hq2⟩
    · simp [reset_response_buffer, hq]
    · have h1 : ¬ sub32 (now % 4294967296) s.last_update_time_ ≥ UPDATE_INTERVAL_MS := by omega
      have h2 : ¬ sub32 (now % 4294967296) s.last_temperature_time_ ≥ 30000 := by omega
      by_cases hd : s.device_initialized_ = true <;> simp [reset_response_buffer, hd, h1, h2]
  · rw [if_neg hto]
    rcases hquiet with hq | ⟨hq1, hq2⟩
    · simp [hq]
    · have h1 : ¬ sub32 (now % 4294967296) s.last_update_time_ ≥ UPDATE_INTERVAL_MS := by omega
      have h2 : ¬ sub32 (now % 4294967296) s.last_temperature_time_ ≥ 30000 := by omega
      by_cases hd : s.device_initialized_ = true <;> simp [hd, h1, h2]

/-- C8, as amended: in a tick at clock reading `t_check` in which no request is
due, with the wait clock holding a reading `t0` other than 0 and a buffer
holding partial data (count > 0), the buffer is discarded - the reassembler is
reset, the wait clock cleared, a warning logged, and the next fragment of
length at least 4 is stored as a first fragment - if
`(t_check - t0) mod 2^32 > 30000`, and the state is left as it is otherwise;
with a count of 0 nothing is discarded. -/
theorem timeout_discard (s : State) (t0 t_check now t_data t_temp : Nat)
    (w_data w_temp : Nat → Int)
    (hclock : s.response_start_time_ = t0) (ht0 : t0 ≠ 0)
    (hquiet : s.device_initialized_ = false
      ∨ (sub32 (now % 4294967296) s.last_update_time_ < UPDATE_INTERVAL_MS
          ∧ sub32 (now % 4294967296) s.last_temperature_time_ < 30000)) :
    (0 < s.bytes_received_ → ((t_check : ℤ) - (t0 : ℤ)) % 4294967296 > 30000 →
        loop s t_check now t_data t_temp w_data w_temp
          = (reset_response_buffer s, [Effect.log Log.response_timeout]))
      ∧ (0 < s.bytes_received_ → ¬ ((t_check : ℤ) - (t0 : ℤ)) % 4294967296 > 30000 →
        loop s t_check now t_data t_temp w_data w_temp = (s, []))
      ∧ (s.bytes_received_ = 0 →
        loop s t_check now t_data t_temp w_data w_temp = (s, []))
      ∧ (reset_response_buffer s).response_buffer_ = []
      ∧ (reset_response_buffer s).bytes_received_ = 0
      ∧ (reset_response_buffer s).expected_response_size_ = 0
      ∧ (reset_response_buffer s).response_start_time_ = 0
      ∧ ∀ g : List Nat, 4 ≤ g.length →
          store_fragment (reset_response_buffer s) g =
            (some { reset_response_buffer s with
                expected_response_size_ :=
                  le32 (g.getD 0 0) (g.getD 1 0) (g.getD 2 0) (g.getD 3 0),
                response_buffer_ := g.drop 4,
                bytes_received_ := (g.length - 4) % 4294967296 },
              [Effect.log (Log.new_response
                (le32 (g.getD 0 0) (g.getD 1 0) (g.getD 2 0) (g.getD 3 0)))]) := by
  have hq := loop_quiet s t_check now t_data t_temp w_data w_temp hquiet
  have hto : is_response_timeout s t_check = true
      ↔ ((t_check : ℤ) - (t0 : ℤ)) % 4294967296 > 30000 := by
    have hne : ¬ s.response_start_time_ = 0 := by rw [hclock]; exact ht0
    have hi := sub32_eq_int_emod t_check t0
    simp only [is_response_timeout, hne, if_false]
    simp only [decide_eq_true_eq, RESPONSE_TIMEOUT_MS, hclock]
    rw [← hi]
    exact ⟨fun h => by exact_mod_cast h, fun h => by exact_mod_cast h⟩
  refine ⟨?_, ?_, ?_, rfl, rfl, rfl, rfl, ?_⟩
  · intro hpos hgt
    rw [hq, if_pos ⟨hpos, hto.mpr hgt⟩]
  · intro hpos hle
    rw [hq, if_neg (fun h => hle (hto.mp h.2))]
  · intro hz
    rw [hq, if_neg (fun h => by omega)]
  · intro g hg
    have := store_fragment_first (reset_response_buffer s) g rfl hg
    simpa [reset_response_buffer] using this

/-- C8 at concrete readings: a wait clock started at 1000 with 2 bytes stored
is discarded by the tick at 31001 (30 001 ms later). -/
theorem timeout_discard_witness :
    loop { State.fresh false false false false false with
        response_start_time_ := 1000, expected_response_size_ := 20,
        response_buffer_ := [0x26, 0x08], bytes_received_ := 2 }
      31001 31001 0 0 (fun _ => 0) (fun _ => 0)
      = ({ State.fresh false false false false false with response_start_time_ := 0 },
          [Effect.log Log.response_timeout]) :=
  (timeout_discard { State.fresh false false false false false with
        response_start_time_ := 1000, expected_response_size_ := 20,
        response_buffer_ := [0x26, 0x08], bytes_received_ := 2 }
    1000 31001 31001 0 0 (fun _ => 0) (fun _ => 0) rfl (by decide) (Or.inl rfl)).1
    (by decide) (by decide)

/-- C8 as stated fails when `send_command` starts the wait clock at reading 0:
a command sent at `millis() = 0` leaves the wait clock at 0, and after 2 of 20
bytes have arrived the tick at 30001 keeps the buffer although
`(30001 - 0) mod 2^32 > 30000`. -/
theorem timeout_missed_for_clock_started_at_zero :
    (send_command { State.fresh false false false false false with
        services_discovered_ := true } 0x0826 [0, 1, 0, 0] (fun _ => 0) 0).1
      = { State.fresh false false false false false with
          services_discovered_ := true, sequence_number_ := 1, response_start_time_ := 0 }
    ∧ (handle_notification { State.fresh false false false false false with
          services_discovered_ := true, sequence_number_ := 1, response_start_time_ := 0 }
        (fun _ => 0) (fun _ => 0) [20, 0, 0, 0, 0x26, 0x08]).1
      = { State.fresh false false false false false with
          services_discovered_ := true, sequence_number_ := 1,
          expected_response_size_ := 20, response_buffer_ := [0x26, 0x08],
          bytes_received_ := 2 }
    ∧ ((30001 : ℤ) - (0 : ℤ)) % 4294967296 > 30000
    ∧ loop { State.fresh false false false false false with
          services_discovered_ := true, sequence_number_ := 1,
          expected_response_size_ := 20, response_buffer_ := [0x26, 0x08],
          bytes_received_ := 2 }
        30001 30001 0 0 (fun _ => 0) (fun _ => 0)
      = ({ State.fresh false false false false false with
          services_discovered_ := true, sequence_number_ := 1,
          expected_response_size_ := 20, response_buffer_ := [0x26, 0x08],
          bytes_received_ := 2 }, []) := by
  decide

/-! ## Retcode gating -/

theorem retcode_success_iff (c r : Nat) :
    retcode_success c r = true
      ↔ (c = 0x0826 ∧ r = 1) ∨ (c = 0x0824 ∧ (r = 0 ∨ r = 1)) := by
  unfold retcode_success
  simp only [Command.RD_VIRT_STRING, Command.RD_VIRT_SFR]
  by_cases h1 : c = 0x0826
  · subst h1; simp
  · by_cases h2 : c = 0x0824
    · subst h2; simp
    · simp [h1, h2]

/-- C9: `process_complete_response` goes on to the payload dispatch exactly
when the buffer has at least 8 bytes and either `cmd_echo = 0x0826` with
`retcode = 1` or `cmd_echo = 0x0824` with `retcode` 0 or 1, where `cmd_echo`
is the little-endian u16 of bytes `[0,2)` and `retcode` the little-endian u32
of bytes `[4,8)`.  In that case the result is the dispatch followed by the
reset; in every other case a rejection warning is logged, the state is the
reset of the state before (nothing decoded) and no telemetry effect
occurs. -/
theorem response_accepted_iff (s : State) (fv : Nat → ℚ) (clock : Nat → Nat) :
    (((process_complete_response s fv clock).2.filter is_rejection = [])
        ↔ (8 ≤ s.response_buffer_.length
            ∧ ((cmd_echo_of s.response_buffer_ = 0x0826 ∧ retcode_of s.response_buffer_ = 1)
              ∨ (cmd_echo_of s.response_buffer_ = 0x0824
                  ∧ (retcode_of s.response_buffer_ = 0 ∨ retcode_of s.response_buffer_ = 1)))))
      ∧ ((process_complete_response s fv clock).2.filter is_rejection = [] →
          process_complete_response s fv clock =
            (reset_response_buffer
                (dispatch_payload s fv clock (cmd_echo_of s.response_buffer_)
                  s.response_buffer_).1,
              [Effect.log (Log.processing_complete s.response_buffer_.length),
               Effect.log (Log.response (cmd_echo_of s.response_buffer_)
                  (s.response_buffer_.getD 3 0) (retcode_of s.response_buffer_)
                  (s.response_buffer_.length - 8))]
                ++ (dispatch_payload s fv clock (cmd_echo_of s.response_buffer_)
                  s.response_buffer_).2))
      ∧ ((process_complete_response s fv clock).2.filter is_rejection ≠ [] →
          (process_complete_response s fv clock).1 = reset_response_buffer s
            ∧ (process_complete_response s fv clock).2.filter is_telemetry = [])
      ∧ ((∀ x ∈ s.response_buffer_, x < 256) → 8 ≤ s.response_buffer_.length →
          cmd_echo_of s.response_buffer_
              = s.response_buffer_.getD 0 0 + s.response_buffer_.getD 1 0 * 256
            ∧ retcode_of s.response_buffer_
              = s.response_buffer_.getD 4 0 + s.response_buffer_.getD 5 0 * 256
                + s.response_buffer_.getD 6 0 * 65536
                + s.response_buffer_.getD 7 0 * 16777216) := by
  have hdisp := filter_rejection_of_telemetry _
    (dispatch_payload_effects s fv clock (cmd_echo_of s.response_buffer_) s.response_buffer_)
  have hiff := retcode_success_iff (cmd_echo_of s.response_buffer_)
    (retcode_of s.response_buffer_)
  refine ⟨?_, ?_, ?_, ?_⟩
  · unfold process_complete_response
    simp only
    split
    · simp [is_rejection, List.filter_cons]; omega
    · split
      · simp [is_rejection, List.filter_cons]; omega
      · split
        · rename_i h4 h8 hrc
          have hno : ¬ retcode_success (cmd_echo_of s.response_buffer_)
              (retcode_of s.response_buffer_) = true := by simpa using hrc
          refine ⟨fun h => ?_, fun h => absurd (hiff.mpr h.2) hno⟩
          simp [is_rejection, List.filter_cons, List.filter_append] at h
        · rename_i h4 h8 hrc
          have hyes : retcode_success (cmd_echo_of s.response_buffer_)
              (retcode_of s.response_buffer_) = true := by simpa using hrc
          refine ⟨fun _ => ⟨by omega, hiff.mp hyes⟩, fun _ => ?_⟩
          simp [is_rejection, List.filter_cons, List.filter_append, hdisp]
  · unfold process_complete_response
    simp only
    split
    · simp [is_rejection, List.filter_cons]
    · split
      · simp [is_rejection, List.filter_cons]
      · split
        · simp [is_rejection, List.filter_cons]
        · intro _; rfl
  · unfold process_complete_response
    simp only
    split
    · intro _; simp [is_telemetry, List.filter_cons]
    · split
      · intro _; simp [is_telemetry, List.filter_cons]
      · split
        · intro _; simp [is_telemetry, List.filter_cons]
        · simp only [List.filter_append, hdisp, List.filter_cons, is_rejection]
          simp
  · intro hbytes hlen
    have hb : ∀ i, i < 8 → s.response_buffer_.getD i 0 < 256 := by
      intro i hi
      rw [List.getD_eq_getElem _ _ (by omega)]
      exact hbytes _ (List.getElem_mem _)
    exact ⟨le16_eq_add _ _ (hb 0 (by omega)) (hb 1 (by omega)),
      le32_eq_add _ _ _ _ (hb 4 (by omega)) (hb 5 (by omega)) (hb 6 (by omega))
        (hb 7 (by omega))⟩

/-- C9 at a concrete response: `26 08 00 80 01 00 00 00` (read virtual string,
retcode 1) is accepted. -/
theorem response_accepted_iff_witness :
    (process_complete_response
        { State.fresh false false false false false with
          response_buffer_ := [0x26, 0x08, 0x00, 0x80, 1, 0, 0, 0],
          expected_response_size_ := 8, bytes_received_ := 8 }
        (fun _ => 0) (fun _ => 0)).2.filter is_rejection = [] :=
  (response_accepted_iff
    { State.fresh false false false false false with
      response_buffer_ := [0x26, 0x08, 0x00, 0x80, 1, 0, 0, 0],
      expected_response_size_ := 8, bytes_received_ := 8 }
    (fun _ => 0) (fun _ => 0)).1.mpr ⟨by decide, Or.inl ⟨by decide, by decide⟩⟩

/-! ## RecordStreamParser -/

/-- Fuel beyond what the loop needs changes nothing. -/
theorem parse_records_fuel (fv : Nat → ℚ) (clock : Nat → Nat) (data : List Nat) (k : Nat) :
    ∀ (fuel offset : Nat) (s : State), data.length ≤ offset + fuel →
      parse_records fv clock data (fuel + k) offset s
        = parse_records fv clock data fuel offset s := by
  intro fuel
  induction fuel with
  | zero =>
    intro offset s h
    cases k with
    | zero => rfl
    | succ k =>
      have : ¬ offset + 7 ≤ data.length := by omega
      simp [parse_records, this]
  | succ fuel ih =>
    intro offset s h
    rw [show fuel + 1 + k = (fuel + k) + 1 by omega]
    simp only [parse_records]
    rw [ih (offset + 7 + 19) _ (by omega), ih (offset + 7 + 8) _ (by omega),
      ih (offset + 7 + 16) _ (by omega), ih (offset + 7 + 4) _ (by omega)]

/-- The loop over `pre ++ data` from a cursor at or after the end of `pre` is
the loop over `data` with the cursor and the clock shifted by `len(pre)`. -/
theorem parse_records_shift (fv : Nat → ℚ) (clock : Nat → Nat) (pre data : List Nat) :
    ∀ (fuel off : Nat) (s : State),
      parse_records fv clock (pre ++ data) fuel (off + pre.length) s
        = parse_records fv (fun o => clock (o + pre.length)) data fuel off s := by
  intro fuel
  induction fuel with
  | zero => intro off s; rfl
  | succ fuel ih =>
    intro off s
    have hg : ∀ j, (pre ++ data).getD (off + pre.length + j) 0 = data.getD (off + j) 0 := by
      intro j
      rw [List.getD_append_right _ _ _ _ (by omega)]
      congr 1
      omega
    have hdrop : (pre ++ data).drop (off + pre.length + 7) = data.drop (off + 7) := by
      rw [show off + pre.length + 7 = pre.length + (off + 7) by omega, List.drop_append]
    have hc7 : (off + pre.length + 7 ≤ (pre ++ data).length) ↔ (off + 7 ≤ data.length) := by
      simp only [List.length_append]; omega
    have hc19 : (off + pre.length + 7 + 19 ≤ (pre ++ data).length)
        ↔ (off + 7 + 19 ≤ data.length) := by
      simp only [List.length_append]; omega
    simp only [parse_records, hg, hdrop, hc7, hc19]
    rw [show off + pre.length + 7 + 19 = (off + 7 + 19) + pre.length by omega,
      show off + pre.length + 7 + 8 = (off + 7 + 8) + pre.length by omega,
      show off + pre.length + 7 + 16 = (off + 7 + 16) + pre.length by omega,
      show off + pre.length + 7 + 4 = (off + 7 + 4) + pre.length by omega]
    simp only [ih]
    rw [show off + pre.length + 7 = (off + 7) + pre.length by omega]

theorem read_u32_append (B rest : List Nat) (off : Nat) (h : off + 3 < B.length) :
    read_u32 (B ++ rest) off = read_u32 B off := by
  unfold read_u32
  rw [List.getD_append _ _ _ _ (by omega), List.getD_append _ _ _ _ (by omega),
    List.getD_append _ _ _ _ (by omega), List.getD_append _ _ _ _ (by omega)]

theorem parse_realtime_record_append (s : State) (fv : Nat → ℚ) (millis : Nat)
    (B rest : List Nat) (hB : B.length = 19) :
    parse_realtime_record s fv millis (B ++ rest)
      = emit_realtime_record s fv millis
          { count_rate := read_u32 B 4, dose_rate := read_u32 B 8 } := by
  have hlen : ¬ (B ++ rest).length < 19 := by simp only [List.length_append]; omega
  unfold parse_realtime_record
  rw [if_neg hlen, read_u32_append B rest 4 (by omega), read_u32_append B rest 8 (by omega)]

/-- The tail of the loop after one record of `n` body bytes has been consumed:
the parse of `rest` with the clock shifted. -/
theorem parse_records_after_record (s : State) (fv : Nat → ℚ) (clock : Nat → Nat)
    (H B rest : List Nat) (n : Nat) (hH : H.length = 7) (hB : B.length = n) :
    parse_records fv clock (H ++ B ++ rest) (H.length + B.length + rest.length - 1)
        (0 + 7 + n) s
      = parse_data_buffer s fv (fun o => clock (o + (7 + n))) rest := by
  have h1 : 0 + 7 + n = 0 + (H ++ B).length := by simp only [List.length_append]; omega
  have h2 : H.length + B.length + rest.length - 1 = rest.length + (6 + n) := by omega
  rw [h1, parse_records_shift fv clock (H ++ B) rest, h2,
    parse_records_fuel _ _ _ _ rest.length 0 s (by omega)]
  unfold parse_data_buffer
  simp only [List.length_append, hH, hB, Nat.zero_add]

theorem parse_data_buffer_head (s : State) (fv : Nat → ℚ) (clock : Nat → Nat)
    (H B rest : List Nat) (hH : H.length = 7) :
    parse_data_buffer s fv clock (H ++ B ++ rest)
      = parse_records fv clock (H ++ B ++ rest)
          ((H.length + B.length + rest.length - 1) + 1) 0 s
      ∧ (H ++ B ++ rest).getD (0 + 1) 0 = H.getD 1 0
      ∧ (H ++ B ++ rest).getD (0 + 2) 0 = H.getD 2 0
      ∧ (H ++ B ++ rest).drop (0 + 7) = B ++ rest
      ∧ 0 + 7 ≤ (H ++ B ++ rest).length := by
  refine ⟨?_, ?_, ?_, ?_, ?_⟩
  · unfold parse_data_buffer
    congr 1
    simp only [List.length_append]; omega
  · rw [List.append_assoc, List.getD_append _ _ _ _ (by omega)]
  · rw [List.append_assoc, List.getD_append _ _ _ _ (by omega)]
  · rw [List.append_assoc, Nat.zero_add, ← hH, List.drop_left]
  · simp only [List.length_append]; omega

/-- C10: one step of `parse_data_buffer`.  For a payload `H ++ B ++ rest` with
`H` a 7-byte header: for type (0,1) with an 8-byte body, (0,2) with a 16-byte
body and (0,7) with a 4-byte body the parse equals the parse of `rest`; for
type (0,0) with a 19-byte body it is the emission of one `RealTimeRecord`
followed by the parse of `rest`, where the record's `count_rate` is the
little-endian 32-bit value of `B[4..8)` and its `dose_rate` that of `B[8..12)`;
nothing else of `H` or `B` enters the result. -/
theorem parse_record_step (s : State) (fv : Nat → ℚ) (clock : Nat → Nat)
    (H B rest : List Nat) (hH : H.length = 7) :
    (H.getD 1 0 = 0 → H.getD 2 0 = 0 → B.length = 19 →
        parse_data_buffer s fv clock (H ++ B ++ rest)
          = ((parse_data_buffer
                (emit_realtime_record s fv (clock 7)
                  { count_rate := le32 (B.getD 4 0) (B.getD 5 0) (B.getD 6 0) (B.getD 7 0),
                    dose_rate := le32 (B.getD 8 0) (B.getD 9 0) (B.getD 10 0)
                      (B.getD 11 0) }).1
                fv (fun o => clock (o + 26)) rest).1,
              (emit_realtime_record s fv (clock 7)
                  { count_rate := le32 (B.getD 4 0) (B.getD 5 0) (B.getD 6 0) (B.getD 7 0),
                    dose_rate := le32 (B.getD 8 0) (B.getD 9 0) (B.getD 10 0)
                      (B.getD 11 0) }).2
                ++ (parse_data_buffer
                    (emit_realtime_record s fv (clock 7)
                      { count_rate :=
                          le32 (B.getD 4 0) (B.getD 5 0) (B.getD 6 0) (B.getD 7 0),
                        dose_rate :=
                          le32 (B.getD 8 0) (B.getD 9 0) (B.getD 10 0) (B.getD 11 0) }).1
                    fv (fun o => clock (o + 26)) rest).2))
      ∧ (H.getD 1 0 = 0 → H.getD 2 0 = 1 → B.length = 8 →
          parse_data_buffer s fv clock (H ++ B ++ rest)
            = parse_data_buffer s fv (fun o => clock (o + 15)) rest)
      ∧ (H.getD 1 0 = 0 → H.getD 2 0 = 2 → B.length = 16 →
          parse_data_buffer s fv clock (H ++ B ++ rest)
            = parse_data_buffer s fv (fun o => clock (o + 23)) rest)
      ∧ (H.getD 1 0 = 0 → H.getD 2 0 = 7 → B.length = 4 →
          parse_data_buffer s fv clock (H ++ B ++ rest)
            = parse_data_buffer s fv (fun o => clock (o + 11)) rest) := by
  obtain ⟨hp, he, hg, hd, h7⟩ := parse_data_buffer_head s fv clock H B rest hH
  refine ⟨?_, ?_, ?_, ?_⟩
  · intro h1 h2 hB
    have h26 : 0 + 7 + 19 ≤ (H ++ B ++ rest).length := by
      simp only [List.length_append]; omega
    rw [hp]
    simp only [parse_records, he, hg, hd, h7, h26, h1, h2, and_self, if_true]
    rw [parse_realtime_record_append s fv _ B rest hB,
      parse_records_after_record _ fv clock H B rest 19 hH hB]
    rfl
  · intro h1 h2 hB
    rw [hp]
    simp only [parse_records, he, hg, h7, h1, h2, if_true]
    simp only [show ¬ ((0 : Nat) = 0 ∧ (1 : Nat) = 0) by decide, if_false, and_self, if_true]
    exact parse_records_after_record s fv clock H B rest 8 hH hB
  · intro h1 h2 hB
    rw [hp]
    simp only [parse_records, he, hg, h7, h1, h2, if_true]
    simp only [show ¬ ((0 : Nat) = 0 ∧ (2 : Nat) = 0) by decide,
      show ¬ ((0 : Nat) = 0 ∧ (2 : Nat) = 1) by decide, if_false, and_self, if_true]
    exact parse_records_after_record s fv clock H B rest 16 hH hB
  · intro h1 h2 hB
    rw [hp]
    simp only [parse_records, he, hg, h7, h1, h2, if_true]
    simp only [show ¬ ((0 : Nat) = 0 ∧ (7 : Nat) = 0) by decide,
      show ¬ ((0 : Nat) = 0 ∧ (7 : Nat) = 1) by decide,
      show ¬ ((0 : Nat) = 0 ∧ (7 : Nat) = 2) by decide, if_false, and_self, if_true]
    exact parse_records_after_record s fv clock H B rest 4 hH hB

/-- C10 at a concrete payload: a (0,0) record whose body carries the patterns
5 and 1 in bytes `[4,8)` and `[8,12)`, followed by a (3,9) header. -/
theorem parse_record_step_witness :
    parse_data_buffer (State.fresh true true true true true) (fun n => (n : ℚ))
        (fun _ => 1000)
        ([7, 0, 0, 1, 2, 3, 4]
          ++ [9, 9, 9, 9, 5, 0, 0, 0, 1, 0, 0, 0, 8, 8, 8, 8, 8, 8, 8]
          ++ [8, 3, 9, 0, 0, 0, 0])
      = ((parse_data_buffer
            (emit_realtime_record (State.fresh true true true true true)
              (fun n => (n : ℚ)) 1000 { count_rate := 5, dose_rate := 1 }).1
            (fun n => (n : ℚ)) (fun _ => 1000) [8, 3, 9, 0, 0, 0, 0]).1,
          (emit_realtime_record (State.fresh true true true true true)
              (fun n => (n : ℚ)) 1000 { count_rate := 5, dose_rate := 1 }).2
            ++ (parse_data_buffer
                (emit_realtime_record (State.fresh true true true true true)
                  (fun n => (n : ℚ)) 1000 { count_rate := 5, dose_rate := 1 }).1
                (fun n => (n : ℚ)) (fun _ => 1000) [8, 3, 9, 0, 0, 0, 0]).2) :=
  (parse_record_step (State.fresh true true true true true) (fun n => (n : ℚ))
    (fun _ => 1000) [7, 0, 0, 1, 2, 3, 4]
    [9, 9, 9, 9, 5, 0, 0, 0, 1, 0, 0, 0, 8, 8, 8, 8, 8, 8, 8] [8, 3, 9, 0, 0, 0, 0]
    rfl).1 rfl rfl rfl

/-! ## RecordStreamParser: where the walk stops -/

theorem parse_data_buffer_nil (s : State) (fv : Nat → ℚ) (clock : Nat → Nat) :
    parse_data_buffer s fv clock [] = (s, []) := rfl

theorem parse_data_buffer_short (s : State) (fv : Nat → ℚ) (clock : Nat → Nat)
    (t : List Nat) (ht : t.length < 7) :
    parse_data_buffer s fv clock t = (s, []) := by
  unfold parse_data_buffer
  cases h : t.length with
  | zero => rfl
  | succ n =>
    have hc : ¬ 0 + 7 ≤ t.length := by omega
    simp only [parse_records, hc, if_false]

/-- One complete known record at the head of the payload: its action, then
the parse of the rest with the clock shifted. -/
theorem parse_data_buffer_record (s : State) (fv : Nat → ℚ) (clock : Nat → Nat)
    (r : List Nat × List Nat) (rest : List Nat) (hr : complete_record r) :
    parse_data_buffer s fv clock (r.1 ++ r.2 ++ rest)
      = ((parse_data_buffer (record_action s fv (clock 7) r).1 fv
            (fun o => clock (o + (7 + r.2.length))) rest).1,
          (record_action s fv (clock 7) r).2
            ++ (parse_data_buffer (record_action s fv (clock 7) r).1 fv
                (fun o => clock (o + (7 + r.2.length))) rest).2) := by
  obtain ⟨H, B⟩ := r
  obtain ⟨hH, hk⟩ := hr
  simp only at hH hk
  obtain ⟨hp, he, hg, hd, h7⟩ := parse_data_buffer_head s fv clock H B rest hH
  unfold known_body_length at hk
  unfold record_action
  simp only
  rw [hp]
  by_cases h00 : H.getD 1 0 = 0 ∧ H.getD 2 0 = 0
  · have hB : B.length = 19 := by
      rw [if_pos h00] at hk
      exact (Option.some.inj hk).symm
    have h26 : 0 + 7 + 19 ≤ (H ++ B ++ rest).length := by
      simp only [List.length_append]; omega
    simp only [parse_records, he, hg, hd, h7, h26, h00, and_self, if_true]
    rw [parse_realtime_record_append s fv _ B rest hB,
      parse_records_after_record _ fv clock H B rest 19 hH hB, hB]
  · rw [if_neg h00] at hk
    by_cases h01 : H.getD 1 0 = 0 ∧ H.getD 2 0 = 1
    · have hB : B.length = 8 := by
        rw [if_pos h01] at hk
        exact (Option.some.inj hk).symm
      simp only [parse_records, he, hg, h7, if_true]
      simp only [h00, if_false]
      simp only [h01, and_self, if_true, List.nil_append]
      rw [parse_records_after_record s fv clock H B rest 8 hH hB, hB]
    · rw [if_neg h01] at hk
      by_cases h02 : H.getD 1 0 = 0 ∧ H.getD 2 0 = 2
      · have hB : B.length = 16 := by
          rw [if_pos h02] at hk
          exact (Option.some.inj hk).symm
        simp only [parse_records, he, hg, h7, if_true]
        simp only [h00, h01, if_false]
        simp only [h02, and_self, if_true, List.nil_append]
        rw [parse_records_after_record s fv clock H B rest 16 hH hB, hB]
      · rw [if_neg h02] at hk
        by_cases h07 : H.getD 1 0 = 0 ∧ H.getD 2 0 = 7
        · have hB : B.length = 4 := by
            rw [if_pos h07] at hk
            exact (Option.some.inj hk).symm
          simp only [parse_records, he, hg, h7, if_true]
          simp only [h00, h01, h02, if_false]
          simp only [h07, and_self, if_true, List.nil_append]
          rw [parse_records_after_record s fv clock H B rest 4 hH hB, hB]
        · rw [if_neg h07] at hk
          cases hk

/-- A header of a kind the parser does not step over ends the walk: nothing
is decoded from it or from what follows; the unknown kinds log a warning. -/
theorem parse_data_buffer_stop (s : State) (fv : Nat → ℚ) (clock : Nat → Nat)
    (S rest : List Nat) (hS : S.length = 7)
    (hk : known_body_length (S.getD 1 0) (S.getD 2 0) = none) :
    parse_data_buffer s fv clock (S ++ rest)
      = (s, if S.getD 1 0 = 1 then []
            else [Effect.log (Log.unknown_record (S.getD 1 0) (S.getD 2 0))]) := by
  have hlen : (S ++ rest).length = (6 + rest.length) + 1 := by
    simp only [List.length_append]; omega
  have h7 : 0 + 7 ≤ (S ++ rest).length := by omega
  have he : (S ++ rest).getD (0 + 1) 0 = S.getD 1 0 := List.getD_append _ _ _ _ (by omega)
  have hg : (S ++ rest).getD (0 + 2) 0 = S.getD 2 0 := List.getD_append _ _ _ _ (by omega)
  unfold known_body_length at hk
  have h00 : ¬ (S.getD 1 0 = 0 ∧ S.getD 2 0 = 0) := by
    intro h; rw [if_pos h] at hk; cases hk
  rw [if_neg h00] at hk
  have h01 : ¬ (S.getD 1 0 = 0 ∧ S.getD 2 0 = 1) := by
    intro h; rw [if_pos h] at hk; cases hk
  rw [if_neg h01] at hk
  have h02 : ¬ (S.getD 1 0 = 0 ∧ S.getD 2 0 = 2) := by
    intro h; rw [if_pos h] at hk; cases hk
  rw [if_neg h02] at hk
  have h07 : ¬ (S.getD 1 0 = 0 ∧ S.getD 2 0 = 7) := by
    intro h; rw [if_pos h] at hk; cases hk
  unfold parse_data_buffer
  rw [hlen]
  simp only [parse_records, h7, he, hg, h00, h01, h02, h07, if_true, if_false]
  by_cases h1 : S.getD 1 0 = 1
  · simp only [h1, if_true]
  · simp only [h1, if_false]

/-- A payload that starts with complete known records: the walk over the
records, then the walk over the tail with the clock shifted by their length. -/
theorem parse_data_buffer_records (fv : Nat → ℚ) (recs : List (List Nat × List Nat)) :
    ∀ (s : State) (clock : Nat → Nat) (tail : List Nat),
      (∀ r ∈ recs, complete_record r) →
      parse_data_buffer s fv clock (encode_records recs ++ tail)
        = ((parse_data_buffer (parse_data_buffer s fv clock (encode_records recs)).1 fv
              (fun o => clock (o + (encode_records recs).length)) tail).1,
            (parse_data_buffer s fv clock (encode_records recs)).2
              ++ (parse_data_buffer (parse_data_buffer s fv clock (encode_records recs)).1 fv
                  (fun o => clock (o + (encode_records recs).length)) tail).2) := by
  induction recs with
  | nil =>
    intro s clock tail _
    simp [encode_records, parse_data_buffer_nil]
  | cons r rs ih =>
    intro s clock tail hall
    have hr : complete_record r := hall r (List.mem_cons_self _ _)
    have hrs : ∀ x ∈ rs, complete_record x := fun x hx => hall x (List.mem_cons_of_mem _ hx)
    have hlen : (encode_records (r :: rs)).length
        = (encode_records rs).length + (7 + r.2.length) := by
      simp only [encode_records, List.length_append, hr.1]; omega
    have hclock : (fun o => clock (o + (encode_records (r :: rs)).length))
        = (fun o => (fun o' => clock (o' + (7 + r.2.length))) (o + (encode_records rs).length)) := by
      funext o
      simp only [hlen, Nat.add_assoc]
    have h1 := parse_data_buffer_record s fv clock r (encode_records rs ++ tail) hr
    have h2 := parse_data_buffer_record s fv clock r (encode_records rs) hr
    have h3 := ih (record_action s fv (clock 7) r).1 (fun o => clock (o + (7 + r.2.length)))
      tail hrs
    rw [show encode_records (r :: rs) ++ tail = r.1 ++ r.2 ++ (encode_records rs ++ tail) by
      simp [encode_records, List.append_assoc]]
    rw [show encode_records (r :: rs) = r.1 ++ r.2 ++ encode_records rs from rfl] at hclock
    rw [show encode_records (r :: rs) = r.1 ++ r.2 ++ encode_records rs from rfl]
    rw [h1, h2, h3, hclock]
    simp only [List.append_assoc]

/-- C11: for a payload `P` made of complete known records (kinds (0,0), (0,1),
(0,2), (0,7) with full bodies), a 7-byte header `S` of the extended kind
(`entity_id = 1`) or of a kind the parser does not know, and any bytes `rest`,
the parse of `P ++ S ++ rest` ends in the state of the parse of `P` with the
effects of the parse of `P`, followed only by the unknown-record warning when
`entity_id` is not 1: the records decoded are exactly those of `P`, and
nothing that follows `S` is decoded. -/
theorem parse_stops_at_unknown_header (s : State) (fv : Nat → ℚ) (clock : Nat → Nat)
    (recs : List (List Nat × List Nat)) (S rest : List Nat)
    (hall : ∀ r ∈ recs, complete_record r) (hS : S.length = 7)
    (hk : S.getD 1 0 = 1 ∨ known_body_length (S.getD 1 0) (S.getD 2 0) = none) :
    parse_data_buffer s fv clock (encode_records recs ++ S ++ rest)
        = ((parse_data_buffer s fv clock (encode_records recs)).1,
            (parse_data_buffer s fv clock (encode_records recs)).2
              ++ (if S.getD 1 0 = 1 then []
                  else [Effect.log (Log.unknown_record (S.getD 1 0) (S.getD 2 0))]))
      ∧ (parse_data_buffer s fv clock (encode_records recs ++ S ++ rest)).2.filter
            is_radiation_log
          = (parse_data_buffer s fv clock (encode_records recs)).2.filter is_radiation_log := by
  have hnone : known_body_length (S.getD 1 0) (S.getD 2 0) = none := by
    rcases hk with h1 | h
    · unfold known_body_length
      rw [h1]
      simp
    · exact h
  have hmain : parse_data_buffer s fv clock (encode_records recs ++ S ++ rest)
      = ((parse_data_buffer s fv clock (encode_records recs)).1,
          (parse_data_buffer s fv clock (encode_records recs)).2
            ++ (if S.getD 1 0 = 1 then []
                else [Effect.log (Log.unknown_record (S.getD 1 0) (S.getD 2 0))])) := by
    rw [List.append_assoc, parse_data_buffer_records fv recs s clock (S ++ rest) hall,
      parse_data_buffer_stop _ fv _ S rest hS hnone]
  refine ⟨hmain, ?_⟩
  rw [hmain]
  simp only [List.filter_append]
  by_cases h1 : S.getD 1 0 = 1
  · simp only [h1, if_true, List.filter_nil, List.append_nil]
  · simp only [h1, if_false]
    simp [List.filter_cons, is_radiation_log]

/-- C11 at a concrete payload: one (0,0) record with a 19-byte body followed
by a (3,9) header and more bytes gives exactly one decoded record, then the
warning. -/
theorem parse_stops_at_unknown_header_witness :
    parse_data_buffer (State.fresh true true true true true) (fun n => (n : ℚ))
        (fun _ => 1000)
        (encode_records
            [([7, 0, 0, 1, 2, 3, 4],
              [9, 9, 9, 9, 5, 0, 0, 0, 1, 0, 0, 0, 8, 8, 8, 8, 8, 8, 8])]
          ++ [8, 3, 9, 0, 0, 0, 0] ++ [1, 2, 3])
      = ((parse_data_buffer (State.fresh true true true true true) (fun n => (n : ℚ))
            (fun _ => 1000)
            (encode_records
              [([7, 0, 0, 1, 2, 3, 4],
                [9, 9, 9, 9, 5, 0, 0, 0, 1, 0, 0, 0, 8, 8, 8, 8, 8, 8, 8])])).1,
          (parse_data_buffer (State.fresh true true true true true) (fun n => (n : ℚ))
            (fun _ => 1000)
            (encode_records
              [([7, 0, 0, 1, 2, 3, 4],
                [9, 9, 9, 9, 5, 0, 0, 0, 1, 0, 0, 0, 8, 8, 8, 8, 8, 8, 8])])).2
            ++ [Effect.log (Log.unknown_record 3 9)])
    ∧ ((parse_data_buffer (State.fresh true true true true true) (fun n => (n : ℚ))
          (fun _ => 1000)
          (encode_records
              [([7, 0, 0, 1, 2, 3, 4],
                [9, 9, 9, 9, 5, 0, 0, 0, 1, 0, 0, 0, 8, 8, 8, 8, 8, 8, 8])]
            ++ [8, 3, 9, 0, 0, 0, 0] ++ [1, 2, 3])).2.filter is_radiation_log).length = 1 :=
  ⟨(parse_stops_at_unknown_header (State.fresh true true true true true)
      (fun n => (n : ℚ)) (fun _ => 1000)
      [([7, 0, 0, 1, 2, 3, 4], [9, 9, 9, 9, 5, 0, 0, 0, 1, 0, 0, 0, 8, 8, 8, 8, 8, 8, 8])]
      [8, 3, 9, 0, 0, 0, 0] [1, 2, 3] (by decide) rfl (Or.inr rfl)).1,
    by decide⟩

/-- C12: for a payload `P` made of complete known records and trailing bytes
`t` too few for a header (`len(t) < 7`), the parse of `P ++ t` is the parse
of `P`: same state, same effects, no byte of `t` read as a header. -/
theorem parse_ignores_short_tail (s : State) (fv : Nat → ℚ) (clock : Nat → Nat)
    (recs : List (List Nat × List Nat)) (t : List Nat)
    (hall : ∀ r ∈ recs, complete_record r) (ht : t.length < 7) :
    parse_data_buffer s fv clock (encode_records recs ++ t)
      = parse_data_buffer s fv clock (encode_records recs) := by
  rw [parse_data_buffer_records fv recs s clock t hall,
    parse_data_buffer_short _ fv _ t ht]
  simp

/-- C12 at a concrete payload: a (0,1) record, a (0,0) record and 5 trailing
bytes. -/
theorem parse_ignores_short_tail_witness :
    parse_data_buffer (State.fresh true true true true true) (fun n => (n : ℚ))
        (fun _ => 1000)
        (encode_records
            [([1, 0, 1, 0, 0, 0, 0], [1, 2, 3, 4, 5, 6, 7, 8]),
             ([7, 0, 0, 1, 2, 3, 4],
              [9, 9, 9, 9, 5, 0, 0, 0, 1, 0, 0, 0, 8, 8, 8, 8, 8, 8, 8])]
          ++ [8, 0, 0, 0, 0])
      = parse_data_buffer (State.fresh true true true true true) (fun n => (n : ℚ))
          (fun _ => 1000)
          (encode_records
            [([1, 0, 1, 0, 0, 0, 0], [1, 2, 3, 4, 5, 6, 7, 8]),
             ([7, 0, 0, 1, 2, 3, 4],
              [9, 9, 9, 9, 5, 0, 0, 0, 1, 0, 0, 0, 8, 8, 8, 8, 8, 8, 8])]) :=
  parse_ignores_short_tail (State.fresh true true true true true) (fun n => (n : ℚ))
    (fun _ => 1000)
    [([1, 0, 1, 0, 0, 0, 0], [1, 2, 3, 4, 5, 6, 7, 8]),
     ([7, 0, 0, 1, 2, 3, 4], [9, 9, 9, 9, 5, 0, 0, 0, 1, 0, 0, 0, 8, 8, 8, 8, 8, 8, 8])]
    [8, 0, 0, 0, 0] (by decide) (by decide)

/-! ## Side effects of framing and of a disconnect -/

/-- C13: a `send_command` call whose clock reading at line 221 is `now`, made
with services discovered from any prior reassembler state, leaves an empty
response buffer, a count of 0, an expected size of 0 and the wait clock at
`now`; the next fragment is handled as a first fragment (stored with its first
four bytes as expected size when it has at least 4 bytes, rejected
otherwise). -/
theorem send_command_restarts_reassembly (s : State) (c : Nat) (p : List Nat)
    (wstatus : Nat → Int) (now : Nat)
    (hs : s.services_discovered_ = true) (hnow : now < 4294967296) :
    (send_command s c p wstatus now).1.response_buffer_ = []
      ∧ (send_command s c p wstatus now).1.bytes_received_ = 0
      ∧ (send_command s c p wstatus now).1.expected_response_size_ = 0
      ∧ (send_command s c p wstatus now).1.response_start_time_ = now
      ∧ (∀ g : List Nat, 4 ≤ g.length →
          store_fragment (send_command s c p wstatus now).1 g =
            (some { (send_command s c p wstatus now).1 with
                expected_response_size_ :=
                  le32 (g.getD 0 0) (g.getD 1 0) (g.getD 2 0) (g.getD 3 0),
                response_buffer_ := g.drop 4,
                bytes_received_ := (g.length - 4) % 4294967296 },
              [Effect.log (Log.new_response
                (le32 (g.getD 0 0) (g.getD 1 0) (g.getD 2 0) (g.getD 3 0)))]))
      ∧ (∀ g : List Nat, g.length < 4 →
          (store_fragment (send_command s c p wstatus now).1 g).1 = none) := by
  have hst := send_command_state s c p wstatus now hs
  have hb : (send_command s c p wstatus now).1.response_buffer_ = [] := by
    rw [hst]; rfl
  have h0 : (send_command s c p wstatus now).1.bytes_received_ = 0 := by
    rw [hst]; rfl
  refine ⟨hb, h0, by rw [hst]; rfl, ?_, ?_, ?_⟩
  · rw [hst]
    exact Nat.mod_eq_of_lt hnow
  · intro g hg
    have := store_fragment_first _ g h0 hg
    rw [hb, List.nil_append] at this
    exact this
  · intro g hg
    exact store_fragment_short _ g h0 hg

/-- C13 at a concrete input: a command framed at reading 5000 over a stale
partial buffer. -/
theorem send_command_restarts_reassembly_witness :
    (send_command { State.fresh false false false false false with
        services_discovered_ := true, response_buffer_ := [0x26, 0x08],
        bytes_received_ := 2, expected_response_size_ := 20, response_start_time_ := 77 }
      0x0826 [0, 1, 0, 0] (fun _ => 0) 5000).1.response_start_time_ = 5000 :=
  (send_command_restarts_reassembly { State.fresh false false false false false with
        services_discovered_ := true, response_buffer_ := [0x26, 0x08],
        bytes_received_ := 2, expected_response_size_ := 20, response_start_time_ := 77 }
    0x0826 [0, 1, 0, 0] (fun _ => 0) 5000 rfl (by decide)).2.2.2.1

/-- C14, as amended: a disconnect event clears `services_discovered_` and
`device_initialized_`, logs the disconnect and changes no other field: the
request timers keep their values and the response buffer, its counters and
the wait clock are left as they are.  With the session no longer initialized,
a later tick sends nothing and changes no request timer. -/
theorem disconnect_clears_flags_only (s : State) (fv : Nat → ℚ) (clock : Nat → Nat)
    (wstatus : Nat → Int) (millis : Nat)
    (t_check now t_data t_temp : Nat) (w_data w_temp : Nat → Int) :
    gattc_event_handler s fv clock wstatus millis GattcEvent.disconnect_evt
        = ({ s with services_discovered_ := false, device_initialized_ := false },
            [Effect.log Log.disconnected])
      ∧ writes (loop
            (gattc_event_handler s fv clock wstatus millis GattcEvent.disconnect_evt).1
            t_check now t_data t_temp w_data w_temp).2 = []
      ∧ (loop (gattc_event_handler s fv clock wstatus millis GattcEvent.disconnect_evt).1
            t_check now t_data t_temp w_data w_temp).1.last_update_time_
          = s.last_update_time_
      ∧ (loop (gattc_event_handler s fv clock wstatus millis GattcEvent.disconnect_evt).1
            t_check now t_data t_temp w_data w_temp).1.last_temperature_time_
          = s.last_temperature_time_ := by
  have hq := loop_quiet
    { s with services_discovered_ := false, device_initialized_ := false }
    t_check now t_data t_temp w_data w_temp (Or.inl rfl)
  refine ⟨rfl, ?_, ?_, ?_⟩
  · simp only [gattc_event_handler]
    rw [hq]
    split <;> simp [writes]
  · simp only [gattc_event_handler]
    rw [hq]
    split <;> simp [reset_response_buffer]
  · simp only [gattc_event_handler]
    rw [hq]
    split <;> simp [reset_response_buffer]

/-- C14 as stated fails: after a disconnect in a state with a partial response
(2 of 20 bytes, wait clock 1000) and request timers at 5000 and 30000, the
buffer, the counters, the wait clock and both timers still hold those
values. -/
theorem disconnect_keeps_buffer_and_timers :
    (gattc_event_handler
        { State.fresh false false false false false with
          services_discovered_ := true, device_initialized_ := true,
          response_buffer_ := [0x26, 0x08], bytes_received_ := 2,
          expected_response_size_ := 20, response_start_time_ := 1000,
          last_update_time_ := 5000, last_temperature_time_ := 30000 }
        (fun _ => 0) (fun _ => 0) (fun _ => 0) 6000 GattcEvent.disconnect_evt).1
      = { State.fresh false false false false false with
          services_discovered_ := false, device_initialized_ := false,
          response_buffer_ := [0x26, 0x08], bytes_received_ := 2,
          expected_response_size_ := 20, response_start_time_ := 1000,
          last_update_time_ := 5000, last_temperature_time_ := 30000 } := by
  decide

/-! ## The three requests -/

/-- A packet of at most 18 bytes goes out as one fragment. -/
theorem writes_send_command_single (s : State) (c : Nat) (p : List Nat)
    (wstatus : Nat → Int) (millis : Nat) (hs : s.services_discovered_ = true)
    (hlen : (build_packet s c p).length ≤ 18) :
    writes (send_command s c p wstatus millis).2 = [build_packet s c p] := by
  rw [writes_send_command s c p wstatus millis hs]
  have hpos : 0 < (build_packet s c p).length := by
    rw [build_packet_eq]; simp
  obtain ⟨k, hk⟩ : ∃ k, (build_packet s c p).length = k + 1 := ⟨_, (Nat.sub_add_cancel hpos).symm⟩
  rw [hk, writes_send_chunks_step _ _ _ k 0 (by omega),
    writes_send_chunks_stop _ _ _ k (0 + 18) (by omega), List.drop_zero,
    List.take_of_length_le hlen]

theorem request_data_eq (s : State) (wstatus : Nat → Int) (millis : Nat) :
    request_data s wstatus millis
      = ((send_command s 0x0826 [0, 1, 0, 0] wstatus millis).1,
          [Effect.log Log.requesting_data]
            ++ (send_command s 0x0826 [0, 1, 0, 0] wstatus millis).2) := by
  simp [request_data, id_bytes_eq, Command.RD_VIRT_STRING, VirtualString.DATA_BUF]

theorem request_temperature_eq (s : State) (wstatus : Nat → Int) (millis : Nat) :
    request_temperature s wstatus millis
      = ((send_command s 0x0824 [0x24, 0x80, 0, 0] wstatus millis).1,
          [Effect.log (Log.requesting_temperature 0x8024)]
            ++ (send_command s 0x0824 [0x24, 0x80, 0, 0] wstatus millis).2) := by
  simp [request_temperature, id_bytes_eq, Command.RD_VIRT_SFR, VSFR.TEMP_degC]

theorem build_packet_request (s : State) (c b0 b1 b2 b3 : Nat) (hc : c < 65536) :
    build_packet s c [b0, b1, b2, b3]
      = [8, 0, 0, 0, c % 256, c / 256, 0, 0x80 + s.sequence_number_ % 32, b0, b1, b2, b3] := by
  rw [build_packet_eq, Nat.mod_eq_of_lt hc,
    Nat.mod_eq_of_lt (show 0x80 + s.sequence_number_ % 32 < 256 by omega)]
  have h : c / 256 % 256 = c / 256 := Nat.mod_eq_of_lt (by omega)
  simp [h]

theorem writes_send_command_undiscovered (s : State) (c : Nat) (p : List Nat)
    (wstatus : Nat → Int) (millis : Nat) (hs : s.services_discovered_ = false) :
    writes (send_command s c p wstatus millis).2 = [] := by
  simp [send_command, hs, writes]

/-- C16: with `0x80 + (sequence_number_ mod 32)` the current sequence byte, what
`request_data` hands the link is exactly the 12 bytes
`08 00 00 00 26 08 00 s 00 01 00 00`, `request_temperature` exactly
`08 00 00 00 24 08 00 s 24 80 00 00` and `initialize_device` exactly
`08 00 00 00 17 00 00 s 01 FF 12 FF`, each in a single fragment; without
services discovered they hand the link nothing at all. -/
theorem request_packets_bit_exact (s : State) (wstatus : Nat → Int) (millis : Nat) :
    writes (request_data s wstatus millis).2
        = (if s.services_discovered_ = true then
            [[0x08, 0x00, 0x00, 0x00, 0x26, 0x08, 0x00, 0x80 + s.sequence_number_ % 32,
              0x00, 0x01, 0x00, 0x00]]
           else [])
      ∧ writes (request_temperature s wstatus millis).2
        = (if s.services_discovered_ = true then
            [[0x08, 0x00, 0x00, 0x00, 0x24, 0x08, 0x00, 0x80 + s.sequence_number_ % 32,
              0x24, 0x80, 0x00, 0x00]]
           else [])
      ∧ writes (initialize_device s wstatus millis).2
        = (if s.services_discovered_ = true then
            [[0x08, 0x00, 0x00, 0x00, 0x17, 0x00, 0x00, 0x80 + s.sequence_number_ % 32,
              0x01, 0xFF, 0x12, 0xFF]]
           else [])
      ∧ seq_byte s = 0x80 + s.sequence_number_ % 32 := by
  have hseq : seq_byte s = 0x80 + s.sequence_number_ % 32 := by
    unfold seq_byte
    omega
  by_cases hs : s.services_discovered_ = true
  · simp only [hs, if_true]
    refine ⟨?_, ?_, ?_, hseq⟩
    · rw [request_data_eq, writes_append,
        writes_send_command_single s _ _ wstatus millis hs
          (by rw [build_packet_request s _ _ _ _ _ (by decide)]; simp),
        build_packet_request s _ _ _ _ _ (by decide)]
      simp [writes]
    · rw [request_temperature_eq, writes_append,
        writes_send_command_single s _ _ wstatus millis hs
          (by rw [build_packet_request s _ _ _ _ _ (by decide)]; simp),
        build_packet_request s _ _ _ _ _ (by decide)]
      simp [writes]
    · simp only [initialize_device, Command.SET_EXCHANGE]
      rw [writes_append,
        writes_send_command_single s _ _ wstatus millis hs
          (by rw [build_packet_request s _ _ _ _ _ (by decide)]; simp),
        build_packet_request s _ _ _ _ _ (by decide)]
      simp [writes]
  · have hf : s.services_discovered_ = false := by
      cases h : s.services_discovered_ with
      | false => rfl
      | true => exact absurd h hs
    simp only [hf, Bool.false_eq_true, if_false]
    refine ⟨?_, ?_, ?_, hseq⟩
    · rw [request_data_eq, writes_append, writes_send_command_undiscovered s _ _ _ _ hf]
      simp [writes]
    · rw [request_temperature_eq, writes_append,
        writes_send_command_undiscovered s _ _ _ _ hf]
      simp [writes]
    · simp only [initialize_device]
      rw [writes_append, writes_send_command_undiscovered s _ _ _ _ hf]
      simp [writes]

/-- C16 at a concrete input: the data request of a session whose counter
stands at 33 goes out with sequence byte `0x81`. -/
theorem request_packets_bit_exact_witness :
    writes (request_data { State.fresh false false false false false with
        services_discovered_ := true, sequence_number_ := 33 } (fun _ => 0) 1000).2
      = [[0x08, 0x00, 0x00, 0x00, 0x26, 0x08, 0x00, 0x81, 0x00, 0x01, 0x00, 0x00]] :=
  (request_packets_bit_exact { State.fresh false false false false false with
        services_discovered_ := true, sequence_number_ := 33 } (fun _ => 0) 1000).1

/-! ## Periodic requests in `loop` -/

/-- The timeout check at the head of `loop` touches neither the session flags,
nor the sequence counter, nor the request timers, and writes nothing. -/
theorem loop_head (s : State) (t_check : Nat) :
    ∃ (s0 : State) (e0 : List Effect),
      (if s.bytes_received_ > 0 ∧ is_response_timeout s t_check = true then
          (reset_response_buffer s, [Effect.log Log.response_timeout])
        else (s, [])) = (s0, e0)
      ∧ s0.services_discovered_ = s.services_discovered_
      ∧ s0.device_initialized_ = s.device_initialized_
      ∧ s0.sequence_number_ = s.sequence_number_
      ∧ s0.last_update_time_ = s.last_update_time_
      ∧ s0.last_temperature_time_ = s.last_temperature_time_
      ∧ writes e0 = [] := by
  by_cases hto : s.bytes_received_ > 0 ∧ is_response_timeout s t_check = true
  · exact ⟨_, _, if_pos hto, rfl, rfl, rfl, rfl, rfl, rfl⟩
  · exact ⟨_, _, if_neg hto, rfl, rfl, rfl, rfl, rfl, rfl⟩

/-- The state and the link writes of a data request followed by the timer
update of line 32. -/
theorem request_data_step (s0 : State) (now t_data : Nat) (w_data : Nat → Int)
    (hsd : s0.services_discovered_ = true) :
    ({ (request_data s0 w_data t_data).1 with last_update_time_ := now }).services_discovered_
        = true
      ∧ ({ (request_data s0 w_data t_data).1 with last_update_time_ := now }).sequence_number_
        = (s0.sequence_number_ + 1) % 256
      ∧ ({ (request_data s0 w_data t_data).1 with
            last_update_time_ := now }).last_temperature_time_ = s0.last_temperature_time_
      ∧ writes (request_data s0 w_data t_data).2
        = [[0x08, 0x00, 0x00, 0x00, 0x26, 0x08, 0x00, 0x80 + s0.sequence_number_ % 32,
            0x00, 0x01, 0x00, 0x00]] := by
  have hst := send_command_state s0 0x0826 [0, 1, 0, 0] w_data t_data hsd
  have hw : writes (request_data s0 w_data t_data).2
      = [[0x08, 0x00, 0x00, 0x00, 0x26, 0x08, 0x00, 0x80 + s0.sequence_number_ % 32,
          0x00, 0x01, 0x00, 0x00]] := by
    rw [request_data_eq, writes_append,
      writes_send_command_single s0 _ _ w_data t_data hsd
        (by rw [build_packet_request s0 _ _ _ _ _ (by decide)]; simp),
      build_packet_request s0 _ _ _ _ _ (by decide)]
    simp [writes]
  refine ⟨?_, ?_, ?_, hw⟩
  · rw [request_data_eq]
    simp only [hst]
    simpa [reset_response_buffer] using hsd
  · rw [request_data_eq]
    simp only [hst]
    rfl
  · rw [request_data_eq]
    simp only [hst]
    rfl

/-- The state and the link writes of a temperature request followed by the
timer update of line 38. -/
theorem request_temperature_step (s1 : State) (now t_temp : Nat) (w_temp : Nat → Int)
    (hsd : s1.services_discovered_ = true) :
    ({ (request_temperature s1 w_temp t_temp).1 with
          last_temperature_time_ := now }).last_update_time_ = s1.last_update_time_
      ∧ writes (request_temperature s1 w_temp t_temp).2
        = [[0x08, 0x00, 0x00, 0x00, 0x24, 0x08, 0x00, 0x80 + s1.sequence_number_ % 32,
            0x24, 0x80, 0x00, 0x00]] := by
  have hst := send_command_state s1 0x0824 [0x24, 0x80, 0, 0] w_temp t_temp hsd
  have hw : writes (request_temperature s1 w_temp t_temp).2
      = [[0x08, 0x00, 0x00, 0x00, 0x24, 0x08, 0x00, 0x80 + s1.sequence_number_ % 32,
          0x24, 0x80, 0x00, 0x00]] := by
    rw [request_temperature_eq, writes_append,
      writes_send_command_single s1 _ _ w_temp t_temp hsd
        (by rw [build_packet_request s1 _ _ _ _ _ (by decide)]; simp),
      build_packet_request s1 _ _ _ _ _ (by decide)]
    simp [writes]
  refine ⟨?_, hw⟩
  rw [request_temperature_eq]
  simp only [hst]
  rfl

theorem sub32_ge_iff (now x k : Nat) (hnow : now < 4294967296) :
    sub32 (now % 4294967296) x ≥ k ↔ ((now : ℤ) - (x : ℤ)) % 4294967296 ≥ (k : ℤ) := by
  rw [Nat.mod_eq_of_lt hnow, ← sub32_eq_int_emod]
  exact ⟨fun h => by exact_mod_cast h, fun h => by exact_mod_cast h⟩

/-- C15, as amended: a tick of `loop` whose clock reading at line 27 is `now`.
With the session Operational (services discovered and device initialized) the
data request goes out exactly when `(now - last_update_time_) mod 2^32 >= 5000`,
and then `last_update_time_` becomes `now`; the temperature request goes out
exactly when `(now - last_temperature_time_) mod 2^32 >= 30000`, and then
`last_temperature_time_` becomes `now`; when both are due the data request is
written first and the temperature request carries the next sequence byte.
With the device not initialized nothing is written and both timers keep their
values. -/
theorem periodic_requests (s : State) (t_check now t_data t_temp : Nat)
    (w_data w_temp : Nat → Int) (hnow : now < 4294967296) :
    (s.services_discovered_ = true → s.device_initialized_ = true →
        (loop s t_check now t_data t_temp w_data w_temp).1.last_update_time_
            = (if ((now : ℤ) - (s.last_update_time_ : ℤ)) % 4294967296 ≥ 5000 then now
               else s.last_update_time_)
          ∧ (loop s t_check now t_data t_temp w_data w_temp).1.last_temperature_time_
            = (if ((now : ℤ) - (s.last_temperature_time_ : ℤ)) % 4294967296 ≥ 30000 then now
               else s.last_temperature_time_)
          ∧ writes (loop s t_check now t_data t_temp w_data w_temp).2
            = (if ((now : ℤ) - (s.last_update_time_ : ℤ)) % 4294967296 ≥ 5000 then
                [[0x08, 0x00, 0x00, 0x00, 0x26, 0x08, 0x00, 0x80 + s.sequence_number_ % 32,
                  0x00, 0x01, 0x00, 0x00]]
               else [])
              ++ (if ((now : ℤ) - (s.last_temperature_time_ : ℤ)) % 4294967296 ≥ 30000 then
                [[0x08, 0x00, 0x00, 0x00, 0x24, 0x08, 0x00,
                  0x80 + (if ((now : ℤ) - (s.last_update_time_ : ℤ)) % 4294967296 ≥ 5000
                          then (s.sequence_number_ + 1) % 256
                          else s.sequence_number_) % 32,
                  0x24, 0x80, 0x00, 0x00]]
               else []))
      ∧ (s.device_initialized_ = false →
          writes (loop s t_check now t_data t_temp w_data w_temp).2 = []
            ∧ (loop s t_check now t_data t_temp w_data w_temp).1.last_update_time_
              = s.last_update_time_
            ∧ (loop s t_check now t_data t_temp w_data w_temp).1.last_temperature_time_
              = s.last_temperature_time_) := by
  obtain ⟨s0, e0, hr0, h1, h2, h3, h4, h5, h6⟩ := loop_head s t_check
  constructor
  · intro hsd hdi
    have hsd0 : s0.services_discovered_ = true := by rw [h1]; exact hsd
    have hdi0 : s0.device_initialized_ = true := by rw [h2]; exact hdi
    have hD : sub32 (now % 4294967296) s.last_update_time_ ≥ 5000
        ↔ ((now : ℤ) - (s.last_update_time_ : ℤ)) % 4294967296 ≥ 5000 := by
      have h := sub32_ge_iff now s.last_update_time_ 5000 hnow
      rw [Nat.cast_ofNat] at h
      exact h
    have hT : sub32 (now % 4294967296) s.last_temperature_time_ ≥ 30000
        ↔ ((now : ℤ) - (s.last_temperature_time_ : ℤ)) % 4294967296 ≥ 30000 := by
      have h := sub32_ge_iff now s.last_temperature_time_ 30000 hnow
      rw [Nat.cast_ofNat] at h
      exact h
    obtain ⟨d1, d2, d3, d4⟩ := request_data_step s0 (now % 4294967296) t_data w_data hsd0
    unfold loop
    simp only [hr0, hdi0, if_true, UPDATE_INTERVAL_MS, h4]
    by_cases hd : sub32 (now % 4294967296) s.last_update_time_ ≥ 5000
    · have hdI := hD.mp hd
      simp only [hd, if_true, d3, h5]
      obtain ⟨t1, t2⟩ := request_temperature_step
        { (request_data s0 w_data t_data).1 with last_update_time_ := now % 4294967296 }
        (now % 4294967296) t_temp w_temp d1
      by_cases ht : sub32 (now % 4294967296) s.last_temperature_time_ ≥ 30000
      · have htI := hT.mp ht
        simp only [ht, if_true]
        rw [if_pos hdI, if_pos htI, if_pos hdI, if_pos htI, if_pos hdI]
        refine ⟨t1.trans (Nat.mod_eq_of_lt hnow), Nat.mod_eq_of_lt hnow, ?_⟩
        show writes (e0 ++ (request_data s0 w_data t_data).2
          ++ (request_temperature
              { (request_data s0 w_data t_data).1 with last_update_time_ := now % 4294967296 }
              w_temp t_temp).2) = _
        rw [writes_append, writes_append, h6, d4, t2, d2, h3]
        rfl
      · have htI : ¬ ((now : ℤ) - (s.last_temperature_time_ : ℤ)) % 4294967296 ≥ 30000 :=
          fun h => ht (hT.mpr h)
        simp only [ht, if_false]
        rw [if_pos hdI, if_neg htI, if_pos hdI, if_neg htI]
        refine ⟨Nat.mod_eq_of_lt hnow, d3.trans h5, ?_⟩
        show writes (e0 ++ (request_data s0 w_data t_data).2 ++ []) = _
        rw [writes_append, writes_append, h6, d4, h3]
        rfl
    · have hdI : ¬ ((now : ℤ) - (s.last_update_time_ : ℤ)) % 4294967296 ≥ 5000 :=
        fun h => hd (hD.mpr h)
      simp only [hd, if_false, h5]
      obtain ⟨t1, t2⟩ := request_temperature_step s0 (now % 4294967296) t_temp w_temp hsd0
      by_cases ht : sub32 (now % 4294967296) s.last_temperature_time_ ≥ 30000
      · have htI := hT.mp ht
        simp only [ht, if_true]
        rw [if_neg hdI, if_pos htI, if_neg hdI, if_pos htI, if_neg hdI]
        refine ⟨t1.trans h4, Nat.mod_eq_of_lt hnow, ?_⟩
        show writes (e0 ++ [] ++ (request_temperature s0 w_temp t_temp).2) = _
        rw [writes_append, writes_append, h6, t2, h3]
        rfl
      · have htI : ¬ ((now : ℤ) - (s.last_temperature_time_ : ℤ)) % 4294967296 ≥ 30000 :=
          fun h => ht (hT.mpr h)
        simp only [ht, if_false]
        rw [if_neg hdI, if_neg htI, if_neg hdI, if_neg htI]
        refine ⟨h4, h5, ?_⟩
        show writes (e0 ++ [] ++ []) = _
        rw [writes_append, writes_append, h6]
        rfl
  · intro hdi
    have hdi0 : s0.device_initialized_ = false := by rw [h2]; exact hdi
    unfold loop
    simp only [hr0, hdi0]
    exact ⟨h6, h4, h5⟩

/-- C15 at a concrete tick: with both timers at 0 the tick at 30000 writes the
data request and then the temperature request, with consecutive sequence
bytes. -/
theorem periodic_requests_witness :
    writes (loop { State.fresh false false false false false with
        services_discovered_ := true, device_initialized_ := true, sequence_number_ := 5 }
      30000 30000 30001 30002 (fun _ => 0) (fun _ => 0)).2
      = [[0x08, 0x00, 0x00, 0x00, 0x26, 0x08, 0x00, 0x85, 0x00, 0x01, 0x00, 0x00],
         [0x08, 0x00, 0x00, 0x00, 0x24, 0x08, 0x00, 0x86, 0x24, 0x80, 0x00, 0x00]] :=
  ((periodic_requests { State.fresh false false false false false with
        services_discovered_ := true, device_initialized_ := true, sequence_number_ := 5 }
    30000 30000 30001 30002 (fun _ => 0) (fun _ => 0) (by decide)).1 rfl rfl).2.2

/-- C15 as stated fails in the state with the device initialized but services
not discovered, which a notify-registration event on a fresh session produces:
at the tick at 5000, with `(5000 - 0) mod 2^32 >= 5000`, `loop` calls
`request_data`, `send_command` returns without writing, and
`last_update_time_` is set to 5000 all the same.  No request is sent although
one is due, and a timer changes although nothing is sent. -/
theorem tick_without_services_sets_timer_only :
    (gattc_event_handler (State.fresh false false false false false) (fun _ => 0)
        (fun _ => 0) (fun _ => 0) 100 (GattcEvent.reg_for_notify_evt true)).1
      = { State.fresh false false false false false with device_initialized_ := true }
    ∧ ((5000 : ℤ) - (0 : ℤ)) % 4294967296 ≥ 5000
    ∧ writes (loop { State.fresh false false false false false with
          device_initialized_ := true } 5000 5000 5001 5002 (fun _ => 0) (fun _ => 0)).2 = []
    ∧ (loop { State.fresh false false false false false with
          device_initialized_ := true } 5000 5000 5001 5002 (fun _ => 0)
          (fun _ => 0)).1.last_update_time_ = 5000 := by
  decide

/-! ## DoseIntegrator -/

/-- The effects of an integration call before the throttled report hold no
accumulated-dose report. -/
theorem published_no_dose_report (s : State) (l : Log) (a b c : ℚ) :
    ([Effect.log l]
        ++ (if s.count_rate_sensor_ = true then [Effect.publish Sensor.count_rate a] else [])
        ++ (if s.count_rate_cpm_sensor_ = true then [Effect.publish Sensor.count_rate_cpm b]
            else [])
        ++ (if s.dose_rate_sensor_ = true then [Effect.publish Sensor.dose_rate c]
            else [])).filter is_dose_report = [] := by
  by_cases h1 : s.count_rate_sensor_ = true <;> by_cases h2 : s.count_rate_cpm_sensor_ = true <;>
    by_cases h3 : s.dose_rate_sensor_ = true <;>
    simp [h1, h2, h3, List.filter_cons, is_dose_report]

/-- C17: an integration call (`parse_realtime_record` on a body of at least 19
bytes) at clock reading `now`, with the accumulated-dose sink configured,
reports exactly when `(now - last_dose_report_time_) mod 2^32 >= 60000`; the
value reported is the accumulator after this call's accumulation divided by
1000 and `last_dose_report_time_` becomes `now`; otherwise nothing is reported
and `last_dose_report_time_` keeps its value.  After a report at 0 a call at
`now < 60000` reports nothing and a call at `now >= 60000` reports. -/
theorem dose_report_throttle (s : State) (fv : Nat → ℚ) (now : Nat) (data : List Nat)
    (hsink : s.dose_accumulated_sensor_ = true) (hlen : 19 ≤ data.length)
    (hnow : now < 4294967296) :
    (((now : ℤ) - (s.last_dose_report_time_ : ℤ)) % 4294967296 ≥ 60000 →
        (parse_realtime_record s fv now data).2.filter is_dose_report
            = [Effect.publish Sensor.dose_accumulated
                ((parse_realtime_record s fv now data).1.accumulated_dose_nsv_ / 1000)]
          ∧ (parse_realtime_record s fv now data).1.last_dose_report_time_ = now)
      ∧ (¬ ((now : ℤ) - (s.last_dose_report_time_ : ℤ)) % 4294967296 ≥ 60000 →
        (parse_realtime_record s fv now data).2.filter is_dose_report = []
          ∧ (parse_realtime_record s fv now data).1.last_dose_report_time_
              = s.last_dose_report_time_)
      ∧ (s.last_dose_report_time_ = 0 →
          (((now : ℤ) - (s.last_dose_report_time_ : ℤ)) % 4294967296 ≥ 60000
            ↔ 60000 ≤ now)) := by
  have hD : sub32 (now % 4294967296) s.last_dose_report_time_ ≥ 60000
      ↔ ((now : ℤ) - (s.last_dose_report_time_ : ℤ)) % 4294967296 ≥ 60000 := by
    have h := sub32_ge_iff now s.last_dose_report_time_ 60000 hnow
    rw [Nat.cast_ofNat] at h
    exact h
  have hl : ¬ data.length < 19 := by omega
  refine ⟨?_, ?_, ?_⟩
  · intro h
    have hc := hD.mpr h
    unfold parse_realtime_record emit_realtime_record
    simp only [hl, if_false, hsink, true_and, hc, if_true]
    refine ⟨?_, Nat.mod_eq_of_lt hnow⟩
    rw [List.filter_append, published_no_dose_report]
    simp [List.filter_cons, is_dose_report]
  · intro h
    have hc : ¬ sub32 (now % 4294967296) s.last_dose_report_time_ ≥ 60000 :=
      fun h' => h (hD.mp h')
    unfold parse_realtime_record emit_realtime_record
    simp only [hl, if_false, hsink, true_and, hc]
    exact ⟨published_no_dose_report _ _ _ _ _, trivial⟩
  · intro h0
    rw [h0]
    omega

/-- C17 at concrete readings: after a report at 0, the call at 50000 reports
nothing. -/
theorem dose_report_throttle_witness :
    (parse_realtime_record (State.fresh true true true true true) (fun n => (n : ℚ)) 50000
        [9, 9, 9, 9, 5, 0, 0, 0, 1, 0, 0, 0, 8, 8, 8, 8, 8, 8, 8]).2.filter is_dose_report
      = [] :=
  ((dose_report_throttle (State.fresh true true true true true) (fun n => (n : ℚ)) 50000
    [9, 9, 9, 9, 5, 0, 0, 0, 1, 0, 0, 0, 8, 8, 8, 8, 8, 8, 8] rfl (by decide)
    (by decide)).2.1 (by decide)).1

theorem sub32_of_le (now t : Nat) (hnow : now < 4294967296) (ht : t ≤ now) :
    sub32 (now % 4294967296) t = now - t := by
  unfold sub32
  rw [Nat.mod_eq_of_lt hnow, Nat.mod_eq_of_lt (show t < 4294967296 by omega)]
  omega

/-- C18, as amended: in exact rational arithmetic, an integration call
(`parse_realtime_record` on a body of at least 19 bytes) at clock reading `now`
that follows an integration at a reading `t_prev` with `0 < t_prev <= now` adds
exactly `dose_rate_nsv * (now - t_prev) / 3600000` to the accumulator, where
`dose_rate_nsv` is the decoded `dose_rate` times `10^7`; with no previous
integration (`last_dose_integration_time_ = 0`) the accumulator is unchanged;
in both cases `last_dose_integration_time_` becomes `now`. -/
theorem dose_integration_step (s : State) (fv : Nat → ℚ) (now t_prev : Nat)
    (data : List Nat) (hlen : 19 ≤ data.length) (hnow : now < 4294967296)
    (hprev : s.last_dose_integration_time_ = t_prev) :
    (0 < t_prev → t_prev ≤ now →
        (parse_realtime_record s fv now data).1.accumulated_dose_nsv_
          = s.accumulated_dose_nsv_
            + fv (read_u32 data 8) * 10000000 * ((now : ℚ) - (t_prev : ℚ)) / 3600000)
      ∧ (t_prev = 0 →
        (parse_realtime_record s fv now data).1.accumulated_dose_nsv_
          = s.accumulated_dose_nsv_)
      ∧ (parse_realtime_record s fv now data).1.last_dose_integration_time_ = now := by
  have hl : ¬ data.length < 19 := by omega
  have hacc : (parse_realtime_record s fv now data).1.accumulated_dose_nsv_
      = if s.last_dose_integration_time_ > 0 then
          s.accumulated_dose_nsv_
            + fv (read_u32 data 8) * 10000000
              * ((sub32 (now % 4294967296) s.last_dose_integration_time_ : ℚ) / 3600000)
        else s.accumulated_dose_nsv_ := by
    unfold parse_realtime_record emit_realtime_record
    simp only [hl, if_false]
    split <;> rfl
  have hlast : (parse_realtime_record s fv now data).1.last_dose_integration_time_
      = now % 4294967296 := by
    unfold parse_realtime_record emit_realtime_record
    simp only [hl, if_false]
    split <;> rfl
  refine ⟨?_, ?_, ?_⟩
  · intro hpos hle
    rw [hacc, hprev, if_pos hpos, sub32_of_le now t_prev hnow hle, Nat.cast_sub hle]
    ring
  · intro h0
    rw [hacc, hprev, h0]
    simp
  · rw [hlast]
    exact Nat.mod_eq_of_lt hnow

/-- C18 at concrete readings: a rate of 1 nSv/h (`dose_rate = 10^-7`) integrated
over exactly 3 600 000 ms, from reading 1000 to reading 3601000, adds 1. -/
theorem dose_integration_step_witness :
    (parse_realtime_record
        { State.fresh false false false false false with
          last_dose_integration_time_ := 1000, accumulated_dose_nsv_ := 7 }
        (fun _ => 1 / 10000000) 3601000
        [0, 0, 0, 0, 0, 0, 0, 0, 0, 0, 0, 0, 0, 0, 0, 0, 0, 0, 0]).1.accumulated_dose_nsv_
      = 7 + 1 := by
  have h := (dose_integration_step
    { State.fresh false false false false false with
      last_dose_integration_time_ := 1000, accumulated_dose_nsv_ := 7 }
    (fun _ => 1 / 10000000) 3601000 1000
    [0, 0, 0, 0, 0, 0, 0, 0, 0, 0, 0, 0, 0, 0, 0, 0, 0, 0, 0]
    (by decide) (by decide) rfl).1 (by decide) (by decide)
  rw [h]
  norm_num

/-- C18 as stated fails when the earlier integration call was made at clock
reading 0: that call leaves `last_dose_integration_time_` at 0, so the call at
3 600 000 with a rate of 1 nSv/h is taken for a first call and adds nothing,
where the claim has it add `1 * 3600000 / 3600000 = 1`. -/
theorem dose_integration_skipped_after_reading_zero :
    (parse_realtime_record (State.fresh false false false false false)
        (fun _ => 1 / 10000000) 0
        [0, 0, 0, 0, 0, 0, 0, 0, 0, 0, 0, 0, 0, 0, 0, 0, 0, 0, 0]).1
      = State.fresh false false false false false
    ∧ (parse_realtime_record (State.fresh false false false false false)
        (fun _ => 1 / 10000000) 3600000
        [0, 0, 0, 0, 0, 0, 0, 0, 0, 0, 0, 0, 0, 0, 0, 0, 0, 0, 0]).1.accumulated_dose_nsv_
      = 0
    ∧ (0 : ℚ) + (1 / 10000000) * 10000000 * ((3600000 : ℚ) - 0) / 3600000 = 1 := by
  refine ⟨?_, ?_, by norm_num⟩
  · simp [parse_realtime_record, emit_realtime_record, State.fresh]
  · simp [parse_realtime_record, emit_realtime_record, State.fresh]

/-! ## Unit conversion -/

theorem round_ties_even_intCast (z : ℤ) : round_ties_even (z : ℚ) = z := by
  unfold round_ties_even
  simp

theorem round_ties_even_nonneg (m : ℚ) (h : 0 ≤ m) : 0 ≤ round_ties_even m := by
  have hf : 0 ≤ Int.floor m := Int.floor_nonneg.mpr h
  unfold round_ties_even
  simp only
  split_ifs <;> omega

/-- Rounding to single precision keeps the sign of a non-negative value. -/
theorem f32_round_nonneg (x : ℚ) (h : 0 ≤ x) : 0 ≤ f32_round x := by
  unfold f32_round
  split_ifs with h0
  · exact le_refl _
  · have hu : (0 : ℚ) < (2 : ℚ) ^ (max (Int.log 2 |x|) (-126) - 23) := zpow_pos (by norm_num) _
    have := round_ties_even_nonneg (x / (2 : ℚ) ^ (max (Int.log 2 |x|) (-126) - 23))
      (div_nonneg h hu.le)
    exact mul_nonneg (by exact_mod_cast this) hu.le

/-- A value that is a whole multiple of the spacing of its binade is a `float`:
rounding leaves it unchanged. -/
theorem f32_round_of_int_quot (x : ℚ) (z : ℤ)
    (h : x / (2 : ℚ) ^ (max (Int.log 2 |x|) (-126) - 23) = z) : f32_round x = x := by
  unfold f32_round
  split_ifs with h0
  · exact h0.symm
  · have hu : (2 : ℚ) ^ (max (Int.log 2 |x|) (-126) - 23) ≠ 0 :=
      (zpow_pos (by norm_num : (0 : ℚ) < 2) _).ne'
    simp only [h, round_ties_even_intCast]
    rw [← h, div_mul_cancel₀ _ hu]

/-- Every integer from 0 to `2^24` is a `float`. -/
theorem f32_round_natCast (n : ℕ) (h : n ≤ 16777216) : f32_round (n : ℚ) = n := by
  rcases Nat.eq_zero_or_pos n with rfl | hpos
  · simp [f32_round]
  have h1 : (1 : ℚ) ≤ (n : ℚ) := by exact_mod_cast hpos
  have habs : |(n : ℚ)| = n := abs_of_nonneg (by positivity)
  have hlog : Int.log 2 (n : ℚ) = (Nat.log 2 n : ℤ) := by
    rw [Int.log_of_one_le_right 2 h1, Nat.floor_natCast]
  have hle : Nat.log 2 n ≤ 24 := by
    have : Nat.log 2 n ≤ Nat.log 2 16777216 := Nat.log_mono_right h
    have h24 : Nat.log 2 16777216 = 24 := by
      rw [show (16777216 : ℕ) = 2 ^ 24 by norm_num, Nat.log_pow (by norm_num)]
    omega
  have hmax : max ((Nat.log 2 n : ℤ)) (-126) = (Nat.log 2 n : ℤ) := by
    apply max_eq_left; omega
  by_cases h24 : Nat.log 2 n = 24
  · have hn : n = 16777216 := by
      have := Nat.pow_log_le_self 2 (Nat.pos_iff_ne_zero.mp hpos)
      rw [h24] at this
      norm_num at this
      omega
    subst hn
    apply f32_round_of_int_quot _ 8388608
    rw [habs, hlog, hmax, h24]
    norm_num
  · have hlt : Nat.log 2 n ≤ 23 := by omega
    apply f32_round_of_int_quot _ ((n * 2 ^ (23 - Nat.log 2 n) : ℕ) : ℤ)
    rw [habs, hlog, hmax]
    have : ((Nat.log 2 n : ℤ) - 23) = -((23 - Nat.log 2 n : ℕ) : ℤ) := by omega
    rw [this, zpow_neg, zpow_natCast]
    push_cast
    field_simp

/-- In the range of a 32-bit `int`, the conversion of a non-negative float is
its floor. -/
theorem truncToInt_of_fit (y : ℚ) (h0 : 0 ≤ y) (h1 : y < 2147483648) :
    truncToInt y = Int.floor y := by
  have hf0 : 0 ≤ Int.floor y := Int.floor_nonneg.mpr h0
  have hf1 : Int.floor y < 2147483648 := by
    have : (Int.floor y : ℚ) ≤ y := Int.floor_le y
    have : (Int.floor y : ℚ) < 2147483648 := lt_of_le_of_lt this h1
    exact_mod_cast this
  unfold truncToInt
  simp only [h0, if_true]
  rw [if_pos ⟨by omega, by omega⟩]

/-- The float `1.875` is its own rounding. -/
theorem f32_round_15_8 : f32_round (15 / 8) = 15 / 8 := by
  have hlog : Int.log 2 |(15 / 8 : ℚ)| = 0 := by
    rw [abs_of_nonneg (by norm_num), Int.log_of_one_le_right 2 (by norm_num)]
    have : ⌊(15 / 8 : ℚ)⌋₊ = 1 := by
      rw [Nat.floor_eq_iff (by norm_num)]
      constructor <;> norm_num
    rw [this]
    simp
  apply f32_round_of_int_quot _ 15728640
  rw [hlog]
  norm_num

/-- The radiation log line and the publishes of one integration call, whatever
the throttled report does. -/
theorem parse_realtime_record_emits (s : State) (fv : Nat → ℚ) (now : Nat)
    (data : List Nat) (hlen : 19 ≤ data.length) :
    (parse_realtime_record s fv now data).2.filter is_radiation_log
        = [Effect.log (Log.radiation (fv (read_u32 data 4))
            (truncToInt (f32_round (fv (read_u32 data 4) * 60)))
            (fv (read_u32 data 8) * 10000000))]
      ∧ (parse_realtime_record s fv now data).2.filter (is_publish_to Sensor.count_rate_cpm)
        = (if s.count_rate_cpm_sensor_ = true then
            [Effect.publish Sensor.count_rate_cpm
              (f32_round ((truncToInt (f32_round (fv (read_u32 data 4) * 60)) : ℤ) : ℚ))]
           else [])
      ∧ (parse_realtime_record s fv now data).2.filter (is_publish_to Sensor.dose_rate)
        = (if s.dose_rate_sensor_ = true then
            [Effect.publish Sensor.dose_rate (fv (read_u32 data 8) * 10000000)]
           else []) := by
  have hl : ¬ data.length < 19 := by omega
  unfold parse_realtime_record emit_realtime_record
  simp only [hl, if_false]
  refine ⟨?_, ?_, ?_⟩
  · split <;>
      by_cases h1 : s.count_rate_sensor_ = true <;>
      by_cases h2 : s.count_rate_cpm_sensor_ = true <;>
      by_cases h3 : s.dose_rate_sensor_ = true <;>
      simp [h1, h2, h3, List.filter_cons, is_radiation_log]
  · split <;>
      by_cases h1 : s.count_rate_sensor_ = true <;>
      by_cases h2 : s.count_rate_cpm_sensor_ = true <;>
      by_cases h3 : s.dose_rate_sensor_ = true <;>
      simp [h1, h2, h3, List.filter_cons, is_publish_to]
  · split <;>
      by_cases h1 : s.count_rate_sensor_ = true <;>
      by_cases h2 : s.count_rate_cpm_sensor_ = true <;>
      by_cases h3 : s.dose_rate_sensor_ = true <;>
      simp [h1, h2, h3, List.filter_cons, is_publish_to]

/-- C19, as amended: for a decoded record with non-negative `count_rate` whose
single-precision product `count_rate * 60.0f` is below `2^31`, the emitted
`count_rate_cpm` is that product truncated toward zero (its floor), published
as the `float` nearest to it; whenever `count_rate * 60` is an integer up to
`2^24` the emitted value is that integer, the nearest integer of the claim.
In exact arithmetic the emitted dose rate is `dose_rate * 10^7`.  These are the
values of the radiation log line and of the publishes to the configured
sinks. -/
theorem rate_conversion (s : State) (fv : Nat → ℚ) (now : Nat) (data : List Nat)
    (hlen : 19 ≤ data.length) (hnn : 0 ≤ fv (read_u32 data 4))
    (hfit : f32_round (fv (read_u32 data 4) * 60) < 2147483648) :
    (parse_realtime_record s fv now data).2.filter is_radiation_log
        = [Effect.log (Log.radiation (fv (read_u32 data 4))
            (Int.floor (f32_round (fv (read_u32 data 4) * 60)))
            (fv (read_u32 data 8) * 10000000))]
      ∧ (parse_realtime_record s fv now data).2.filter (is_publish_to Sensor.count_rate_cpm)
        = (if s.count_rate_cpm_sensor_ = true then
            [Effect.publish Sensor.count_rate_cpm
              (f32_round ((Int.floor (f32_round (fv (read_u32 data 4) * 60)) : ℤ) : ℚ))]
           else [])
      ∧ (parse_realtime_record s fv now data).2.filter (is_publish_to Sensor.dose_rate)
        = (if s.dose_rate_sensor_ = true then
            [Effect.publish Sensor.dose_rate (fv (read_u32 data 8) * 10000000)]
           else [])
      ∧ (∀ n : ℕ, n ≤ 16777216 → fv (read_u32 data 4) * 60 = (n : ℚ) →
          Int.floor (f32_round (fv (read_u32 data 4) * 60)) = (n : ℤ)
            ∧ round (fv (read_u32 data 4) * 60) = (n : ℤ)
            ∧ f32_round ((Int.floor (f32_round (fv (read_u32 data 4) * 60)) : ℤ) : ℚ)
                = (n : ℚ)) := by
  obtain ⟨h1, h2, h3⟩ := parse_realtime_record_emits s fv now data hlen
  have ht : truncToInt (f32_round (fv (read_u32 data 4) * 60))
      = Int.floor (f32_round (fv (read_u32 data 4) * 60)) :=
    truncToInt_of_fit _ (f32_round_nonneg _ (mul_nonneg hnn (by norm_num))) hfit
  rw [ht] at h1 h2
  refine ⟨h1, h2, h3, ?_⟩
  intro n hn heq
  have hfl : Int.floor (f32_round (fv (read_u32 data 4) * 60)) = (n : ℤ) := by
    rw [heq, f32_round_natCast n hn]
    exact Int.floor_natCast n
  refine ⟨hfl, ?_, ?_⟩
  · rw [heq]
    exact round_natCast n
  · rw [hfl, Int.cast_natCast, f32_round_natCast n hn]

/-- C19 at the numeric scenario: `count_rate = 5.0` (bit pattern `0x40A00000`)
and `dose_rate = 10^-7` give `count_rate_cpm = 300` and a dose rate of
1 nSv/h. -/
theorem rate_conversion_witness :
    (parse_realtime_record (State.fresh false false false false false)
        (fun n => if n = 1084227584 then 5 else 1 / 10000000) 1000
        [0, 0, 0, 0, 0, 0, 160, 64, 149, 191, 214, 51, 0, 0, 0, 0, 0, 0, 0]).2.filter
          is_radiation_log
      = [Effect.log (Log.radiation 5 300 1)] := by
  have h5 : read_u32 [0, 0, 0, 0, 0, 0, 160, 64, 149, 191, 214, 51, 0, 0, 0, 0, 0, 0, 0] 4
      = 1084227584 := by decide
  have h1 : read_u32 [0, 0, 0, 0, 0, 0, 160, 64, 149, 191, 214, 51, 0, 0, 0, 0, 0, 0, 0] 8
      = 869711765 := by decide
  have hp : f32_round ((5 : ℚ) * 60) = 300 := by
    rw [show (5 : ℚ) * 60 = ((300 : ℕ) : ℚ) by norm_num, f32_round_natCast 300 (by norm_num)]
    norm_num
  have h := (rate_conversion (State.fresh false false false false false)
    (fun n => if n = 1084227584 then 5 else 1 / 10000000) 1000
    [0, 0, 0, 0, 0, 0, 160, 64, 149, 191, 214, 51, 0, 0, 0, 0, 0, 0, 0] (by decide)
    (by rw [h5]; norm_num)
    (by rw [h5]; simp only [if_true]; rw [hp]; norm_num)).1
  rw [h, h5, h1]
  simp only [if_true]
  rw [hp]
  have hf : Int.floor (300 : ℚ) = 300 := by
    rw [show (300 : ℚ) = ((300 : ℤ) : ℚ) by norm_num, Int.floor_intCast]
  rw [hf]
  norm_num

/-- C19 as stated fails: `count_rate = 0.03125` (bit pattern `0x3D000000`)
gives `count_rate * 60 = 1.875`, a `float`, whose nearest integer is 2, while
the code emits `count_rate_cpm = 1`. -/
theorem count_rate_cpm_truncates :
    (parse_realtime_record (State.fresh false false false false false)
        (fun n => if n = 1023410176 then 1 / 32 else 0) 1000
        [0, 0, 0, 0, 0, 0, 0, 61, 0, 0, 0, 0, 0, 0, 0, 0, 0, 0, 0]).2.filter
          is_radiation_log
      = [Effect.log (Log.radiation (1 / 32) 1 0)]
    ∧ round ((1 / 32 : ℚ) * 60) = 2 := by
  have h4 : read_u32 [0, 0, 0, 0, 0, 0, 0, 61, 0, 0, 0, 0, 0, 0, 0, 0, 0, 0, 0] 4
      = 1023410176 := by decide
  have h8 : read_u32 [0, 0, 0, 0, 0, 0, 0, 61, 0, 0, 0, 0, 0, 0, 0, 0, 0, 0, 0] 8
      = 0 := by decide
  have hp : f32_round ((1 / 32 : ℚ) * 60) = 15 / 8 := by
    rw [show (1 / 32 : ℚ) * 60 = 15 / 8 by norm_num, f32_round_15_8]
  have hfloor : Int.floor (15 / 8 : ℚ) = 1 := by
    rw [Int.floor_eq_iff]
    constructor <;> norm_num
  have htr : truncToInt (15 / 8 : ℚ) = 1 := by
    rw [truncToInt_of_fit _ (by norm_num) (by norm_num), hfloor]
  refine ⟨?_, ?_⟩
  · rw [(parse_realtime_record_emits _ _ _ _ (by decide)).1, h4, h8]
    simp only [if_true]
    rw [hp, htr]
    norm_num
  · rw [round_eq, Int.floor_eq_iff]
    constructor <;> norm_num

/-! ## RecordStreamParser: termination and memory safety -/

theorem parse_realtime_record_reads_bound (base length : Nat) :
    ∀ i ∈ parse_realtime_record_reads base length, i < base + length := by
  intro i hi
  unfold parse_realtime_record_reads at hi
  split at hi
  · simp at hi
  · simp only [List.mem_append, List.mem_map, List.mem_range] at hi
    rcases hi with ⟨j, hj, rfl⟩ | ⟨j, hj, rfl⟩ <;> omega

theorem parse_records_past_end (fv : Nat → ℚ) (clock : Nat → Nat) (data : List Nat)
    (fuel offset : Nat) (s : State) (h : data.length < offset + 7) :
    parse_records fv clock data fuel offset s = (s, []) := by
  cases fuel with
  | zero => rfl
  | succ fuel =>
    have hc : ¬ offset + 7 ≤ data.length := by omega
    simp only [parse_records, hc, if_false]

/-- With fuel for every remaining byte the recorded walk leaves the loop
through its own exit, agrees with `parse_records`, reads only indices inside
the payload, and moves the cursor forward in every iteration, each of which
starts with at least 7 bytes left. -/
theorem parse_walk_spec (fv : Nat → ℚ) (clock : Nat → Nat) (data : List Nat) :
    ∀ (fuel start : Nat) (s : State), data.length ≤ start + fuel →
      (parse_walk fv clock data fuel start s).finished = true
      ∧ (parse_walk fv clock data fuel start s).result
          = parse_records fv clock data fuel start s
      ∧ (∀ i ∈ (parse_walk fv clock data fuel start s).reads, i < data.length)
      ∧ (∀ p ∈ (parse_walk fv clock data fuel start s).steps,
          p.1 < p.2 ∧ p.1 + 7 ≤ data.length) := by
  intro fuel
  induction fuel with
  | zero =>
    intro start s h
    have hc : data.length < start + 7 := by omega
    simp only [parse_walk, parse_records, hc, decide_True]
    exact ⟨trivial, trivial, by simp, by simp⟩
  | succ fuel ih =>
    intro start s h
    by_cases h7 : start + 7 ≤ data.length
    · by_cases h00 : data.getD (start + 1) 0 = 0 ∧ data.getD (start + 2) 0 = 0
      · by_cases h19 : start + 7 + 19 ≤ data.length
        · obtain ⟨i1, i2, i3, i4⟩ := ih (start + 7 + 19)
            (parse_realtime_record s fv (clock (start + 7)) (data.drop (start + 7))).1
            (by omega)
          simp only [parse_walk, parse_records, h7, h00, h19, and_self, if_true]
          refine ⟨i1, by rw [i2], ?_, ?_⟩
          · intro i hi
            simp only [List.mem_append, List.mem_cons, List.mem_singleton, List.not_mem_nil,
              or_false] at hi
            rcases hi with ((hi | hi) | hi) | hi
            · omega
            · omega
            · have := parse_realtime_record_reads_bound _ _ i hi
              omega
            · exact i3 i hi
          · intro p hp
            rcases List.mem_cons.mp hp with rfl | hp
            · exact ⟨by simp only; omega, h7⟩
            · exact i4 p hp
        · obtain ⟨i1, i2, i3, i4⟩ := ih (start + 7 + 19) s (by omega)
          simp only [parse_walk, parse_records, h7, h00, h19, and_self, if_true, if_false]
          refine ⟨i1, by rw [i2], ?_, ?_⟩
          · intro i hi
            simp only [List.mem_append, List.mem_cons, List.mem_singleton, List.not_mem_nil,
              or_false] at hi
            rcases hi with (hi | hi) | hi
            · omega
            · omega
            · exact i3 i hi
          · intro p hp
            rcases List.mem_cons.mp hp with rfl | hp
            · exact ⟨by simp only; omega, h7⟩
            · exact i4 p hp
      · by_cases h01 : data.getD (start + 1) 0 = 0 ∧ data.getD (start + 2) 0 = 1
        · obtain ⟨i1, i2, i3, i4⟩ := ih (start + 7 + 8) s (by omega)
          simp only [parse_walk, parse_records, h7, if_true]
          simp only [h00, if_false]
          simp only [h01, and_self, if_true]
          refine ⟨i1, i2, ?_, ?_⟩
          · intro i hi
            simp only [List.mem_append, List.mem_cons, List.mem_singleton, List.not_mem_nil,
              or_false] at hi
            rcases hi with (hi | hi) | hi
            · omega
            · omega
            · exact i3 i hi
          · intro p hp
            rcases List.mem_cons.mp hp with rfl | hp
            · exact ⟨by simp only; omega, h7⟩
            · exact i4 p hp
        · by_cases h02 : data.getD (start + 1) 0 = 0 ∧ data.getD (start + 2) 0 = 2
          · obtain ⟨i1, i2, i3, i4⟩ := ih (start + 7 + 16) s (by omega)
            simp only [parse_walk, parse_records, h7, if_true]
            simp only [h00, h01, if_false]
            simp only [h02, and_self, if_true]
            refine ⟨i1, i2, ?_, ?_⟩
            · intro i hi
              simp only [List.mem_append, List.mem_cons, List.mem_singleton, List.not_mem_nil,
                or_false] at hi
              rcases hi with (hi | hi) | hi
              · omega
              · omega
              · exact i3 i hi
            · intro p hp
              rcases List.mem_cons.mp hp with rfl | hp
              · exact ⟨by simp only; omega, h7⟩
              · exact i4 p hp
          · by_cases h07 : data.getD (start + 1) 0 = 0 ∧ data.getD (start + 2) 0 = 7
            · obtain ⟨i1, i2, i3, i4⟩ := ih (start + 7 + 4) s (by omega)
              simp only [parse_walk, parse_records, h7, if_true]
              simp only [h00, h01, h02, if_false]
              simp only [h07, and_self, if_true]
              refine ⟨i1, i2, ?_, ?_⟩
              · intro i hi
                simp only [List.mem_append, List.mem_cons, List.mem_singleton,
                  List.not_mem_nil, or_false] at hi
                rcases hi with (hi | hi) | hi
                · omega
                · omega
                · exact i3 i hi
              · intro p hp
                rcases List.mem_cons.mp hp with rfl | hp
                · exact ⟨by simp only; omega, h7⟩
                · exact i4 p hp
            · simp only [parse_walk, parse_records, h7, if_true]
              simp only [h00, h01, h02, h07, if_false]
              by_cases h1 : data.getD (start + 1) 0 = 1
              · simp only [h1, if_true]
                refine ⟨trivial, trivial, ?_, ?_⟩
                · intro i hi
                  simp only [List.mem_cons, List.mem_singleton, List.not_mem_nil,
                    or_false] at hi
                  rcases hi with hi | hi <;> omega
                · intro p hp
                  simp only [List.mem_singleton] at hp
                  subst hp
                  exact ⟨by simp only; omega, h7⟩
              · simp only [h1, if_false]
                refine ⟨trivial, trivial, ?_, ?_⟩
                · intro i hi
                  simp only [List.mem_cons, List.mem_singleton, List.not_mem_nil,
                    or_false] at hi
                  rcases hi with hi | hi <;> omega
                · intro p hp
                  simp only [List.mem_singleton] at hp
                  subst hp
                  exact ⟨by simp only; omega, h7⟩
    · simp only [parse_walk, parse_records, h7, if_false]
      exact ⟨trivial, trivial, by simp, by simp⟩

/-- C20: for every payload, `parse_data_buffer` terminates - the loop leaves
through its own exit within the fuel the model gives it, and more fuel changes
nothing; every byte index read by the loop or by `parse_realtime_record` is
below the payload length; every iteration starts with at least 7 bytes left
and ends with a larger cursor; and a (0,0) header followed by fewer than 19
bytes emits nothing. -/
theorem parse_data_buffer_safe (s : State) (fv : Nat → ℚ) (clock : Nat → Nat)
    (data : List Nat) :
    (parse_walk fv clock data data.length 0 s).finished = true
      ∧ (parse_walk fv clock data data.length 0 s).result = parse_data_buffer s fv clock data
      ∧ (∀ k : Nat, parse_records fv clock data (data.length + k) 0 s
          = parse_data_buffer s fv clock data)
      ∧ (∀ i ∈ (parse_walk fv clock data data.length 0 s).reads, i < data.length)
      ∧ (∀ p ∈ (parse_walk fv clock data data.length 0 s).steps,
          p.1 + 7 ≤ data.length ∧ p.1 < p.2)
      ∧ (∀ H t : List Nat, H.length = 7 → H.getD 1 0 = 0 → H.getD 2 0 = 0 → t.length < 19 →
          parse_data_buffer s fv clock (H ++ t) = (s, [])) := by
  obtain ⟨w1, w2, w3, w4⟩ := parse_walk_spec fv clock data data.length 0 s (by omega)
  refine ⟨w1, w2, ?_, w3, fun p hp => ⟨(w4 p hp).2, (w4 p hp).1⟩, ?_⟩
  · intro k
    exact parse_records_fuel fv clock data k data.length 0 s (by omega)
  · intro H t hH h1 h2 ht
    have hlen : (H ++ t).length = (6 + t.length) + 1 := by
      simp only [List.length_append]; omega
    have h7 : 0 + 7 ≤ (H ++ t).length := by omega
    have he : (H ++ t).getD (0 + 1) 0 = 0 := by
      rw [List.getD_append _ _ _ _ (by omega)]; exact h1
    have hg : (H ++ t).getD (0 + 2) 0 = 0 := by
      rw [List.getD_append _ _ _ _ (by omega)]; exact h2
    have h26 : ¬ 0 + 7 + 19 ≤ (H ++ t).length := by omega
    unfold parse_data_buffer
    rw [hlen]
    simp only [parse_records, h7, he, hg, h26, and_self, if_true, if_false]
    rw [parse_records_past_end fv clock (H ++ t) _ _ s (by omega)]
    rfl

/-- C20 at a concrete payload: a (0,0) header with only 18 bytes after it
emits nothing. -/
theorem parse_data_buffer_safe_witness :
    parse_data_buffer (State.fresh true true true true true) (fun n => (n : ℚ))
        (fun _ => 1000)
        ([7, 0, 0, 1, 2, 3, 4]
          ++ [9, 9, 9, 9, 5, 0, 0, 0, 1, 0, 0, 0, 8, 8, 8, 8, 8, 8])
      = (State.fresh true true true true true, []) :=
  (parse_data_buffer_safe (State.fresh true true true true true) (fun n => (n : ℚ))
    (fun _ => 1000) []).2.2.2.2.2 [7, 0, 0, 1, 2, 3, 4]
    [9, 9, 9, 9, 5, 0, 0, 0, 1, 0, 0, 0, 8, 8, 8, 8, 8, 8] rfl rfl rfl (by decide)

/-! ## ResponseReassembler: any split of a response -/

/-- Continuation fragments that do not reach the expected size are all
appended, the count growing with the buffer, and none reaches the decoder. -/
theorem feed_incomplete (fv : Nat → ℚ) (fs : List (List Nat)) :
    ∀ (s : State) (clock : Nat → Nat → Nat), (∀ f ∈ fs, f ≠ []) →
      0 < s.bytes_received_ →
      s.bytes_received_ + fs.flatten.length < s.expected_response_size_ →
      s.expected_response_size_ < 4294967296 →
      feed s fv clock fs =
          { s with response_buffer_ := s.response_buffer_ ++ fs.flatten,
                   bytes_received_ := s.bytes_received_ + fs.flatten.length }
        ∧ completions s fv clock fs = [] := by
  induction fs with
  | nil =>
    intro s clock _ _ _ _
    exact ⟨by simp [feed], rfl⟩
  | cons f fs ih =>
    intro s clock hne hpos hsum hexp
    have hf : f ≠ [] := hne f (List.mem_cons_self _ _)
    have hfl : 0 < f.length := List.length_pos.mpr hf
    have hst := store_fragment_next s f (by omega) hf
    rw [List.flatten_cons, List.length_append] at hsum
    have hmod : (s.bytes_received_ + f.length) % 4294967296 = s.bytes_received_ + f.length :=
      Nat.mod_eq_of_lt (by omega)
    rw [hmod] at hst
    have hhn := handle_notification_of_some s _ _ fv (clock 0) f hst
    rw [if_neg (by simp only; omega)] at hhn
    obtain ⟨i1, i2⟩ := ih
      { s with response_buffer_ := s.response_buffer_ ++ f,
               bytes_received_ := s.bytes_received_ + f.length }
      (fun j => clock (j + 1)) (fun g hg => hne g (List.mem_cons_of_mem _ hg))
      (by simp only; omega) (by simp only; omega) (by simpa using hexp)
    refine ⟨?_, ?_⟩
    · rw [feed, hhn, i1]
      simp [List.append_assoc, Nat.add_assoc]
    · rw [completions_cons_incomplete s _ _ fv clock f fs hst (by simp only; omega), i2]

/-- Continuation fragments that bring the count exactly to the expected size
end with the reassembler reset. -/
theorem feed_complete (fv : Nat → ℚ) (fs : List (List Nat)) :
    ∀ (s : State) (clock : Nat → Nat → Nat), fs ≠ [] → (∀ f ∈ fs, f ≠ []) →
      0 < s.bytes_received_ →
      s.bytes_received_ + fs.flatten.length = s.expected_response_size_ →
      s.expected_response_size_ < 4294967296 →
      (feed s fv clock fs).bytes_received_ = 0
        ∧ (feed s fv clock fs).response_buffer_ = [] := by
  induction fs with
  | nil => intro s clock h; exact absurd rfl h
  | cons f fs ih =>
    intro s clock _ hne hpos hsum hexp
    have hf : f ≠ [] := hne f (List.mem_cons_self _ _)
    have hfl : 0 < f.length := List.length_pos.mpr hf
    have hst := store_fragment_next s f (by omega) hf
    rw [List.flatten_cons, List.length_append] at hsum
    have hmod : (s.bytes_received_ + f.length) % 4294967296 = s.bytes_received_ + f.length :=
      Nat.mod_eq_of_lt (by omega)
    rw [hmod] at hst
    have hhn := handle_notification_of_some s _ _ fv (clock 0) f hst
    by_cases hfs : fs = []
    · subst hfs
      simp only [List.flatten_nil, List.length_nil, Nat.add_zero] at hsum
      rw [if_pos (by simp only; omega)] at hhn
      obtain ⟨_, p2, p3, _, _⟩ := process_complete_response_resets
        { s with response_buffer_ := s.response_buffer_ ++ f,
                 bytes_received_ := s.bytes_received_ + f.length } fv (clock 0)
      rw [feed, hhn, feed]
      exact ⟨p3, p2⟩
    · have hrest : 0 < fs.flatten.length := by
        cases fs with
        | nil => exact absurd rfl hfs
        | cons g gs =>
          have hg : 0 < g.length :=
            List.length_pos.mpr (hne g (List.mem_cons_of_mem _ (List.mem_cons_self _ _)))
          simp only [List.flatten_cons, List.length_append]
          omega
      rw [if_neg (by simp only; omega)] at hhn
      rw [feed, hhn]
      exact ih _ (fun j => clock (j + 1)) hfs (fun g hg => hne g (List.mem_cons_of_mem _ hg))
        (by simp only; omega) (by simp only; omega) (by simpa using hexp)

/-- A proper initial part of a series of non-empty fragments holds fewer
bytes than the whole series. -/
theorem flatten_take_lt (fs : List (List Nat)) (hne : ∀ f ∈ fs, f ≠ []) :
    ∀ j, j < fs.length → (fs.take j).flatten.length < fs.flatten.length := by
  induction fs with
  | nil => intro j hj; simp at hj
  | cons f fs ih =>
    intro j hj
    have hf : 0 < f.length := List.length_pos.mpr (hne f (List.mem_cons_self _ _))
    cases j with
    | zero =>
      simp only [List.take_zero, List.flatten_nil, List.length_nil, List.flatten_cons,
        List.length_append]
      omega
    | succ j =>
      have := ih (fun g hg => hne g (List.mem_cons_of_mem _ hg)) j
        (by simpa using hj)
      simp only [List.take_succ_cons, List.flatten_cons, List.length_append]
      omega

/-- The first fragment of a split response, with the size header and at least
one body byte: it is stored with the declared size as expected size, the body
bytes it carries as buffer and their number as count. -/
theorem first_fragment_of_split (s : State) (body first : List Nat) (rest : List (List Nat))
    (hbuf : s.response_buffer_ = []) (h0 : s.bytes_received_ = 0)
    (hlen : body.length < 4294967296) (hfirst : 5 ≤ first.length)
    (hcat : first ++ rest.flatten = size_header body.length ++ body) :
    store_fragment s first =
        (some { s with expected_response_size_ := body.length,
                       response_buffer_ := first.drop 4,
                       bytes_received_ := first.length - 4 },
          [Effect.log (Log.new_response body.length)])
      ∧ first.length - 4 + rest.flatten.length = body.length
      ∧ first.drop 4 ++ rest.flatten = body
      ∧ (first.drop 4).length = first.length - 4 := by
  obtain ⟨b1, hb1, hbody⟩ : ∃ b1, first = size_header body.length ++ b1
      ∧ body = b1 ++ rest.flatten := by
    rcases List.append_eq_append_iff.mp hcat with ⟨a, ha, hb⟩ | ⟨c, hc, _⟩
    · have hl := congrArg List.length ha
      simp only [List.length_append, size_header, List.length_cons, List.length_nil] at hl
      omega
    · exact ⟨c, hc, by assumption⟩
  have hb1len : first.length = 4 + b1.length := by
    rw [hb1]; simp [size_header]; omega
  have hexp : le32 (first.getD 0 0) (first.getD 1 0) (first.getD 2 0) (first.getD 3 0)
      = body.length := by
    rw [hb1]
    simp only [size_header, List.cons_append, List.getD_cons_zero, List.getD_cons_succ]
    exact le32_of_bytes _ hlen
  have hdrop : first.drop 4 = b1 := by rw [hb1]; simp [size_header]
  have hblen : body.length = b1.length + rest.flatten.length := by
    conv_lhs => rw [hbody]
    simp
  have hst := store_fragment_first s first h0 (by omega)
  rw [hexp, hbuf, List.nil_append,
    Nat.mod_eq_of_lt (show first.length - 4 < 4294967296 by omega)] at hst
  refine ⟨hst, by omega, by rw [hdrop]; exact hbody.symm, by rw [hdrop]; omega⟩

/-- C21: for a response `R` made of the 4 little-endian bytes of `n` and a body
of `n` bytes, and any split of `R` into non-empty fragments `first :: rest`
whose first fragment has at least 5 bytes (so `n >= 1`), feeding the fragments
in order to `handle_notification` from a reset reassembler calls
`process_complete_response` exactly once, while the last fragment is handled
and on no proper initial part of the series, in a state whose buffer is the
body and whose count is `n`; after every number of fragments fed, the count
equals the length of the buffer. -/
theorem reassembly_any_split (s : State) (fv : Nat → ℚ) (clock : Nat → Nat → Nat)
    (body first : List Nat) (rest : List (List Nat))
    (hbuf : s.response_buffer_ = []) (h0 : s.bytes_received_ = 0)
    (hlen : body.length < 4294967296)
    (hfirst : 5 ≤ first.length) (hne : ∀ f ∈ rest, f ≠ [])
    (hcat : first ++ rest.flatten = size_header body.length ++ body) :
    completions s fv clock (first :: rest)
        = [{ s with expected_response_size_ := body.length, response_buffer_ := body,
                    bytes_received_ := body.length }]
      ∧ (∀ k, k < (first :: rest).length →
          completions s fv clock ((first :: rest).take k) = [])
      ∧ (∀ k, k ≤ (first :: rest).length →
          (feed s fv clock ((first :: rest).take k)).bytes_received_
            = (feed s fv clock ((first :: rest).take k)).response_buffer_.length)
      ∧ 1 ≤ body.length := by
  obtain ⟨hst, hsum, hcatb, hdl⟩ :=
    first_fragment_of_split s body first rest hbuf h0 hlen hfirst hcat
  have hhn := handle_notification_of_some s _ _ fv (clock 0) first hst
  -- the state in which the fragments after the first are handled, when there are any
  have hnext : rest ≠ [] →
      handle_notification s fv (clock 0) first
        = ({ s with expected_response_size_ := body.length,
                    response_buffer_ := first.drop 4,
                    bytes_received_ := first.length - 4 },
            [Effect.log (Log.new_response body.length)]
              ++ [Effect.log (Log.received (first.length - 4) body.length)])
        ∧ first.length - 4 < body.length := by
    intro hrest
    have hpos : 0 < rest.flatten.length := by
      cases rest with
      | nil => exact absurd rfl hrest
      | cons g gs =>
        have hg : 0 < g.length := List.length_pos.mpr (hne g (List.mem_cons_self _ _))
        simp only [List.flatten_cons, List.length_append]
        omega
    rw [if_neg (by simp only; omega)] at hhn
    exact ⟨hhn, by omega⟩
  refine ⟨completions_split s fv clock body first rest hbuf h0 hlen hfirst hne hcat, ?_, ?_,
    by omega⟩
  · intro k hk
    cases k with
    | zero => rfl
    | succ j =>
      have hj : j < rest.length := by simpa using hk
      have hrest : rest ≠ [] := by
        intro h; rw [h] at hj; simp at hj
      obtain ⟨_, hlt⟩ := hnext hrest
      have htl := flatten_take_lt rest hne j hj
      rw [List.take_succ_cons,
        completions_cons_incomplete s _ _ fv clock first (rest.take j) hst (by simp only; omega)]
      exact (feed_incomplete fv (rest.take j) _ (fun i => clock (i + 1))
        (fun g hg => hne g (List.mem_of_mem_take hg)) (by simp only; omega)
        (by simp only; omega) (by simpa using hlen)).2
  · intro k hk
    cases k with
    | zero =>
      simp only [List.take_zero, feed]
      rw [h0, hbuf]
      rfl
    | succ j =>
      have hj : j ≤ rest.length := by simpa using hk
      rw [List.take_succ_cons, feed]
      by_cases hrest : rest = []
      · subst hrest
        simp only [List.take_nil, feed]
        simp only [List.flatten_nil, List.length_nil, Nat.add_zero] at hsum
        rw [if_pos (by simp only; omega)] at hhn
        obtain ⟨_, p2, p3, _, _⟩ := process_complete_response_resets
          { s with expected_response_size_ := body.length,
                   response_buffer_ := first.drop 4,
                   bytes_received_ := first.length - 4 } fv (clock 0)
        rw [hhn]
        simp only
        rw [p2, p3]
        rfl
      · obtain ⟨hstep, hlt⟩ := hnext hrest
        rw [hstep]
        by_cases hjl : j < rest.length
        · have htl := flatten_take_lt rest hne j hjl
          rw [(feed_incomplete fv (rest.take j) _ (fun i => clock (i + 1))
            (fun g hg => hne g (List.mem_of_mem_take hg)) (by simp only; omega)
            (by simp only; omega) (by simpa using hlen)).1]
          simp only [List.length_append, hdl]
        · have hje : j = rest.length := by omega
          rw [hje, List.take_length]
          obtain ⟨q1, q2⟩ := feed_complete fv rest
            { s with expected_response_size_ := body.length,
                     response_buffer_ := first.drop 4,
                     bytes_received_ := first.length - 4 }
            (fun i => clock (i + 1)) hrest hne (by simp only; omega)
            (by simp only; omega) (by simpa using hlen)
          rw [q1, q2]
          rfl

/-- C21 at a concrete split: the response with body `26 08 00 80 01 00 00 00`
cut into fragments of 5, 3 and 4 bytes reaches the decoder once, with the
body as buffer. -/
theorem reassembly_any_split_witness :
    completions (State.fresh false false false false false) (fun _ => 0) (fun _ _ => 0)
        [[8, 0, 0, 0, 0x26], [0x08, 0x00, 0x80], [1, 0, 0, 0]]
      = [{ State.fresh false false false false false with
            expected_response_size_ := 8,
            response_buffer_ := [0x26, 0x08, 0x00, 0x80, 1, 0, 0, 0],
            bytes_received_ := 8 }] :=
  (reassembly_any_split (State.fresh false false false false false) (fun _ => 0)
    (fun _ _ => 0) [0x26, 0x08, 0x00, 0x80, 1, 0, 0, 0] [8, 0, 0, 0, 0x26]
    [[0x08, 0x00, 0x80], [1, 0, 0, 0]] rfl rfl (by decide) (by decide) (by decide)
    (by decide)).1

end RadiaCode
